import Mathlib

/-!
# MulticastCallback: the slot-table engine and the typed event facade

A shallow embedding of `multicast.c` and of the `MULTICASTn_DEFINE` macros of
`multicast.h`, followed by theorems about registration, unregistration and
dispatch.

Conventions of the embedding

* A function pointer is its address, a natural number; `NULL` is address `0`.
* The array a `CB_Data*` points to is a list of `CB_Data`; the null pointer is
  `none`.  The length argument `cbDataLen` is kept separate from the array, as in
  the C signature.
* `assert(0)` is recorded in the `Outcome` of a call.  Touching a slot outside
  the array (possible only when `cbDataLen` exceeds the array) is undefined in C
  and is recorded as `Outcome.outOfBounds`.
* A loop `for (idx = 0; idx < cbDataLen; idx++)` is a structural recursion on the
  number of iterations still to run, carrying `idx`.
* Calling a subscriber is recorded as one entry `(callback, args)` of a call
  trace, and the subscriber may call `Register` and `Unregister` of the event
  being dispatched before it returns: the dispatch loop reads every slot from the
  array as the subscribers called so far have left it.
-/

namespace Multicast

/-- Generic callback function pointer type (`typedef void(*CB_CallbackType)(void*)`),
represented by the address of the function. -/
abbrev CB_CallbackType := Nat

/-- The null function pointer. -/
abbrev NULL : CB_CallbackType := 0

/-- Private callback data structure: one slot of a table. -/
structure CB_Data where
  callback : CB_CallbackType
deriving DecidableEq, Repr

/-- How a call of an engine or facade function ended. -/
inductive Outcome where
  /-- The function ran to its end without reaching an assertion. -/
  | returned
  /-- The statement `assert(0)` was reached. -/
  | assertFailed
  /-- A slot outside the array was read or written. -/
  | outOfBounds
deriving DecidableEq, Repr

/-- What `CB_MulticastAddCallback` and `CB_MulticastRemoveCallback` leave behind:
the array behind `cbData` after the call, and how the call ended. -/
structure CallResult where
  cbData : Option (List CB_Data)
  outcome : Outcome
deriving DecidableEq, Repr

/-- What `CB_MulticastGetCallback` returns, and how the call ended. -/
structure GetResult where
  value : CB_CallbackType
  outcome : Outcome
deriving DecidableEq, Repr

/-- The scan of `CB_MulticastAddCallback`:
`for (idx; idx < cbDataLen; idx++) if (cbData[idx].callback == NULL) { store; success = true; break; }`.
The first argument after `callback` counts the iterations left.  The result is the
array and the flag `success`, or `none` when a slot outside the array is touched. -/
def addLoop (callback : CB_CallbackType) :
    Nat → Nat → List CB_Data → Option (List CB_Data × Bool)
  | 0, _, cbData => some (cbData, false)
  | n + 1, idx, cbData =>
    match cbData[idx]? with
    | none => none
    | some d =>
      if d.callback = NULL then
        some (cbData.set idx { callback := callback }, true)
      else
        addLoop callback n (idx + 1) cbData

/-- Embedding of `void CB_MulticastAddCallback(CB_Data* cbData, size_t cbDataLen, CB_CallbackType callback)`. -/
def CB_MulticastAddCallback (cbData : Option (List CB_Data)) (cbDataLen : Nat)
    (callback : CB_CallbackType) : CallResult :=
  match cbData with
  | none => { cbData := none, outcome := Outcome.assertFailed }
  | some arr =>
    if callback = NULL ∨ cbDataLen = 0 then
      { cbData := some arr, outcome := Outcome.assertFailed }
    else
      match addLoop callback cbDataLen 0 arr with
      | none => { cbData := some arr, outcome := Outcome.outOfBounds }
      | some (arr', success) =>
        if success = false then
          { cbData := some arr', outcome := Outcome.assertFailed }
        else
          { cbData := some arr', outcome := Outcome.returned }

/-- The scan of `CB_MulticastRemoveCallback`:
`for (idx; idx < cbDataLen; idx++) if (cbData[idx].callback == callback) { clear; break; }`.
The result is the array, or `none` when a slot outside the array is touched. -/
def removeLoop (callback : CB_CallbackType) :
    Nat → Nat → List CB_Data → Option (List CB_Data)
  | 0, _, cbData => some cbData
  | n + 1, idx, cbData =>
    match cbData[idx]? with
    | none => none
    | some d =>
      if d.callback = callback then
        some (cbData.set idx { callback := NULL })
      else
        removeLoop callback n (idx + 1) cbData

/-- Embedding of `void CB_MulticastRemoveCallback(CB_Data* cbData, size_t cbDataLen, CB_CallbackType callback)`. -/
def CB_MulticastRemoveCallback (cbData : Option (List CB_Data)) (cbDataLen : Nat)
    (callback : CB_CallbackType) : CallResult :=
  match cbData with
  | none => { cbData := none, outcome := Outcome.assertFailed }
  | some arr =>
    if callback = NULL ∨ cbDataLen = 0 then
      { cbData := some arr, outcome := Outcome.assertFailed }
    else
      match removeLoop callback cbDataLen 0 arr with
      | none => { cbData := some arr, outcome := Outcome.outOfBounds }
      | some arr' => { cbData := some arr', outcome := Outcome.returned }

/-- Embedding of `CB_CallbackType CB_MulticastGetCallback(CB_Data* cbData, size_t cbDataLen, size_t idx)`. -/
def CB_MulticastGetCallback (cbData : Option (List CB_Data)) (cbDataLen : Nat)
    (idx : Nat) : GetResult :=
  match cbData with
  | none => { value := NULL, outcome := Outcome.assertFailed }
  | some arr =>
    if cbDataLen = 0 ∨ idx ≥ cbDataLen then
      { value := NULL, outcome := Outcome.assertFailed }
    else
      match arr[idx]? with
      | none => { value := NULL, outcome := Outcome.outOfBounds }
      | some d => { value := d.callback, outcome := Outcome.returned }

/-- The state of one event after a facade call that may change it: the static
array `name##Multicast` and how the call ended. -/
structure EventResult where
  Multicast : List CB_Data
  outcome : Outcome
deriving DecidableEq, Repr

/-- The static array `static CB_Data name##Multicast[max]` at program start:
static storage is zero-initialised, so every slot holds `NULL`. -/
def initialMulticast (max : Nat) : List CB_Data :=
  List.replicate max { callback := NULL }

/-! The functions generated by `MULTICAST1_DEFINE(name, arg1, max)`.  The cast
between `name##CallbackType` and `CB_CallbackType` keeps the address.  `Register`
and `Unregister` come first, because a subscriber may call them while the event is
being dispatched; `Invoke` follows the dispatch loop below. -/
namespace MULTICAST1

/-- Embedding of `void name##_Register(name##CallbackType callback)`. -/
def Register (max : Nat) (Multicast : List CB_Data) (callback : CB_CallbackType) :
    EventResult :=
  let r := CB_MulticastAddCallback (some Multicast) max callback
  { Multicast := r.cbData.getD Multicast, outcome := r.outcome }

/-- Embedding of `void name##_Unregister(name##CallbackType callback)`. -/
def Unregister (max : Nat) (Multicast : List CB_Data) (callback : CB_CallbackType) :
    EventResult :=
  let r := CB_MulticastRemoveCallback (some Multicast) max callback
  { Multicast := r.cbData.getD Multicast, outcome := r.outcome }

end MULTICAST1

/-! Calls of `Register` and `Unregister` on one event, by `main` or by a subscriber.
Every `MULTICASTn_DEFINE` generates the same two delegations, so the calls are
performed through those of `MULTICAST1_DEFINE`. -/

/-- One call a subscriber can make on an event. -/
inductive Op where
  | register (callback : CB_CallbackType)
  | unregister (callback : CB_CallbackType)
deriving DecidableEq, Repr

/-- The handle an `Op` passes. -/
def Op.callback : Op → CB_CallbackType
  | Op.register callback => callback
  | Op.unregister callback => callback

/-- Performing one `Op` on the event with capacity `max`, through the functions
generated by `MULTICAST1_DEFINE`. -/
def applyOp (max : Nat) (Multicast : List CB_Data) : Op → EventResult
  | Op.register callback => MULTICAST1.Register max Multicast callback
  | Op.unregister callback => MULTICAST1.Unregister max Multicast callback

/-- A caller that performs the calls `ops` one after another: the array after the
last call and the outcome of every call, in call order. -/
def runOps (max : Nat) : List CB_Data → List Op → List CB_Data × List Outcome
  | Multicast, [] => (Multicast, [])
  | Multicast, op :: ops =>
    let r := applyOp max Multicast op
    let rest := runOps max r.Multicast ops
    (rest.1, r.outcome :: rest.2)

/-! Dispatch.  The table is static storage that only `Register` and `Unregister`
change, and both are public, so a subscriber that is called may call them before
it returns; the loop of `name##_Invoke` fetches every slot from the array as it is
at that moment. -/

/-- What the subscribers do when called.  `subs callback args (Multicast, rest)` is
the behaviour of the function at address `callback`, called with `args` while the
event's array is `Multicast` and the other storage of the program is `rest`: the
`Register`/`Unregister` calls it makes on this event before it returns, in order
(directly or through calls it makes in turn), and the other storage as it leaves
it.  A subscriber is taken to return. -/
abbrev Subscribers (σ α : Type) :=
  CB_CallbackType → α → List CB_Data × σ → List Op × σ

/-- What one `name##_Invoke` did: the subscriber calls its loop made, in order,
each with the arguments passed; how the loop ended, as far as its own
`CB_MulticastGetCallback` calls go; the array and the other storage afterwards;
and the outcomes of the `Register`/`Unregister` calls that the called subscribers
made, in order. -/
structure InvokeResult (σ α : Type) where
  calls : List (CB_CallbackType × α)
  outcome : Outcome
  Multicast : List CB_Data
  rest : σ
  calleeOutcomes : List Outcome

/-- The dispatch loop shared by every `name##_Invoke`:
`for (idx; idx < max; idx++) { callback = CB_MulticastGetCallback(&name##Multicast[0], max, idx); if (callback != NULL) callback(args); }`.
The first argument after `args` counts the iterations left; `Multicast` and `rest`
are the array and the other storage at this point of the loop, `calls` the calls
made so far, `outs` the outcomes of the calls the subscribers made so far.  The
call `callback(args)` is recorded and the storage becomes what the subscriber
leaves, so the next slot is fetched from the array as the subscriber left it.  As
for the calls of `main`, an assertion a subscriber's own call reaches is recorded
as the outcome of that call.  A failed assertion inside `CB_MulticastGetCallback`
ends the dispatch. -/
def invokeLoop {σ α : Type} (max : Nat) (subs : Subscribers σ α) (args : α) :
    Nat → Nat → List CB_Data → σ → List (CB_CallbackType × α) → List Outcome →
      InvokeResult σ α
  | 0, _, Multicast, rest, calls, outs =>
    { calls := calls, outcome := Outcome.returned, Multicast := Multicast, rest := rest,
      calleeOutcomes := outs }
  | n + 1, idx, Multicast, rest, calls, outs =>
    let r := CB_MulticastGetCallback (some Multicast) max idx
    match r.outcome with
    | Outcome.returned =>
      if r.value ≠ NULL then
        let effect := subs r.value args (Multicast, rest)
        let done := runOps max Multicast effect.1
        invokeLoop max subs args n (idx + 1) done.1 effect.2
          (calls ++ [(r.value, args)]) (outs ++ done.2)
      else
        invokeLoop max subs args n (idx + 1) Multicast rest calls outs
    | o =>
      { calls := calls, outcome := o, Multicast := Multicast, rest := rest,
        calleeOutcomes := outs }

/-- Subscribers that call neither `Register` nor `Unregister` and leave the other
storage as it is, like the printing callbacks of `main.c`. -/
def inertSubscribers (σ α : Type) : Subscribers σ α :=
  fun _ _ storage => ([], storage.2)

/-- Subscribers of which the function at address `who` makes the calls `ops` on
the event each time it is called and leaves the other storage as it is; every
other function is inert. -/
def callingSubscriber (σ α : Type) (who : CB_CallbackType) (ops : List Op) :
    Subscribers σ α :=
  fun callback _ storage => if callback = who then (ops, storage.2) else ([], storage.2)

namespace MULTICAST1

/-- Embedding of `void name##_Invoke(arg1 val1)`, started with the array
`Multicast` and the other storage `rest`. -/
def Invoke {σ arg1 : Type} (max : Nat) (subs : Subscribers σ arg1)
    (Multicast : List CB_Data) (rest : σ) (val1 : arg1) : InvokeResult σ arg1 :=
  invokeLoop max subs val1 max 0 Multicast rest [] []

end MULTICAST1

/-! The functions generated by `MULTICAST0_DEFINE(name, max)`. -/
namespace MULTICAST0

/-- Embedding of `void name##_Register(name##CallbackType callback)`. -/
def Register (max : Nat) (Multicast : List CB_Data) (callback : CB_CallbackType) :
    EventResult :=
  let r := CB_MulticastAddCallback (some Multicast) max callback
  { Multicast := r.cbData.getD Multicast, outcome := r.outcome }

/-- Embedding of `void name##_Unregister(name##CallbackType callback)`. -/
def Unregister (max : Nat) (Multicast : List CB_Data) (callback : CB_CallbackType) :
    EventResult :=
  let r := CB_MulticastRemoveCallback (some Multicast) max callback
  { Multicast := r.cbData.getD Multicast, outcome := r.outcome }

/-- Embedding of `void name##_Invoke(void)`, started with the array `Multicast` and
the other storage `rest`. -/
def Invoke {σ : Type} (max : Nat) (subs : Subscribers σ Unit) (Multicast : List CB_Data)
    (rest : σ) : InvokeResult σ Unit :=
  invokeLoop max subs () max 0 Multicast rest [] []

end MULTICAST0

/-! The functions generated by `MULTICAST2_DEFINE(name, arg1, arg2, max)`. -/
namespace MULTICAST2

/-- Embedding of `void name##_Register(name##CallbackType callback)`. -/
def Register (max : Nat) (Multicast : List CB_Data) (callback : CB_CallbackType) :
    EventResult :=
  let r := CB_MulticastAddCallback (some Multicast) max callback
  { Multicast := r.cbData.getD Multicast, outcome := r.outcome }

/-- Embedding of `void name##_Unregister(name##CallbackType callback)`. -/
def Unregister (max : Nat) (Multicast : List CB_Data) (callback : CB_CallbackType) :
    EventResult :=
  let r := CB_MulticastRemoveCallback (some Multicast) max callback
  { Multicast := r.cbData.getD Multicast, outcome := r.outcome }

/-- Embedding of `void name##_Invoke(arg1 val1, arg2 val2)`, started with the array
`Multicast` and the other storage `rest`; the arguments of a call are recorded as
the tuple `(val1, val2)`. -/
def Invoke {σ arg1 arg2 : Type} (max : Nat)
    (subs : Subscribers σ (arg1 × arg2)) (Multicast : List CB_Data) (rest : σ)
    (val1 : arg1) (val2 : arg2) :
    InvokeResult σ (arg1 × arg2) :=
  invokeLoop max subs (val1, val2) max 0 Multicast rest [] []

end MULTICAST2

/-! The functions generated by `MULTICAST3_DEFINE(name, arg1, arg2, arg3, max)`. -/
namespace MULTICAST3

/-- Embedding of `void name##_Register(name##CallbackType callback)`. -/
def Register (max : Nat) (Multicast : List CB_Data) (callback : CB_CallbackType) :
    EventResult :=
  let r := CB_MulticastAddCallback (some Multicast) max callback
  { Multicast := r.cbData.getD Multicast, outcome := r.outcome }

/-- Embedding of `void name##_Unregister(name##CallbackType callback)`. -/
def Unregister (max : Nat) (Multicast : List CB_Data) (callback : CB_CallbackType) :
    EventResult :=
  let r := CB_MulticastRemoveCallback (some Multicast) max callback
  { Multicast := r.cbData.getD Multicast, outcome := r.outcome }

/-- Embedding of `void name##_Invoke(arg1 val1, arg2 val2, arg3 val3)`, started with the array
`Multicast` and the other storage `rest`; the arguments of a call are recorded as
the tuple `(val1, val2, val3)`. -/
def Invoke {σ arg1 arg2 arg3 : Type} (max : Nat)
    (subs : Subscribers σ (arg1 × arg2 × arg3)) (Multicast : List CB_Data) (rest : σ)
    (val1 : arg1) (val2 : arg2) (val3 : arg3) :
    InvokeResult σ (arg1 × arg2 × arg3) :=
  invokeLoop max subs (val1, val2, val3) max 0 Multicast rest [] []

end MULTICAST3

/-! The functions generated by `MULTICAST4_DEFINE(name, arg1, arg2, arg3, arg4, max)`. -/
namespace MULTICAST4

/-- Embedding of `void name##_Register(name##CallbackType callback)`. -/
def Register (max : Nat) (Multicast : List CB_Data) (callback : CB_CallbackType) :
    EventResult :=
  let r := CB_MulticastAddCallback (some Multicast) max callback
  { Multicast := r.cbData.getD Multicast, outcome := r.outcome }

/-- Embedding of `void name##_Unregister(name##CallbackType callback)`. -/
def Unregister (max : Nat) (Multicast : List CB_Data) (callback : CB_CallbackType) :
    EventResult :=
  let r := CB_MulticastRemoveCallback (some Multicast) max callback
  { Multicast := r.cbData.getD Multicast, outcome := r.outcome }

/-- Embedding of `void name##_Invoke(arg1 val1, arg2 val2, arg3 val3, arg4 val4)`, started with the array
`Multicast` and the other storage `rest`; the arguments of a call are recorded as
the tuple `(val1, val2, val3, val4)`. -/
def Invoke {σ arg1 arg2 arg3 arg4 : Type} (max : Nat)
    (subs : Subscribers σ (arg1 × arg2 × arg3 × arg4)) (Multicast : List CB_Data) (rest : σ)
    (val1 : arg1) (val2 : arg2) (val3 : arg3) (val4 : arg4) :
    InvokeResult σ (arg1 × arg2 × arg3 × arg4) :=
  invokeLoop max subs (val1, val2, val3, val4) max 0 Multicast rest [] []

end MULTICAST4

/-! The functions generated by `MULTICAST5_DEFINE(name, arg1, arg2, arg3, arg4, arg5, max)`. -/
namespace MULTICAST5

/-- Embedding of `void name##_Register(name##CallbackType callback)`. -/
def Register (max : Nat) (Multicast : List CB_Data) (callback : CB_CallbackType) :
    EventResult :=
  let r := CB_MulticastAddCallback (some Multicast) max callback
  { Multicast := r.cbData.getD Multicast, outcome := r.outcome }

/-- Embedding of `void name##_Unregister(name##CallbackType callback)`. -/
def Unregister (max : Nat) (Multicast : List CB_Data) (callback : CB_CallbackType) :
    EventResult :=
  let r := CB_MulticastRemoveCallback (some Multicast) max callback
  { Multicast := r.cbData.getD Multicast, outcome := r.outcome }

/-- Embedding of `void name##_Invoke(arg1 val1, arg2 val2, arg3 val3, arg4 val4, arg5 val5)`, started with the array
`Multicast` and the other storage `rest`; the arguments of a call are recorded as
the tuple `(val1, val2, val3, val4, val5)`. -/
def Invoke {σ arg1 arg2 arg3 arg4 arg5 : Type} (max : Nat)
    (subs : Subscribers σ (arg1 × arg2 × arg3 × arg4 × arg5)) (Multicast : List CB_Data) (rest : σ)
    (val1 : arg1) (val2 : arg2) (val3 : arg3) (val4 : arg4) (val5 : arg5) :
    InvokeResult σ (arg1 × arg2 × arg3 × arg4 × arg5) :=
  invokeLoop max subs (val1, val2, val3, val4, val5) max 0 Multicast rest [] []

end MULTICAST5

/-! The mode publisher of `sysdata.h` and `sysdata.c`. -/

/-- The handles of the occupied slots of a table, as a multiset. -/
def occupiedHandles (Multicast : List CB_Data) : Multiset CB_CallbackType :=
  (((Multicast.filter (fun d => decide (d.callback ≠ NULL))).map (fun d => d.callback) :
    List CB_CallbackType) : Multiset CB_CallbackType)

/-- The abstract subscriber multiset, one step, in the words of the specification:
a `Register` inserts one occurrence of the handle, an `Unregister` deletes one
occurrence of it if there is any. -/
def specStep (subscribers : Multiset CB_CallbackType) : Op → Multiset CB_CallbackType
  | Op.register callback => callback ::ₘ subscribers
  | Op.unregister callback => subscribers.erase callback

/-- The abstract subscriber multiset after the calls `ops`, starting from
`subscribers`. -/
def specRun (subscribers : Multiset CB_CallbackType) (ops : List Op) :
    Multiset CB_CallbackType :=
  ops.foldl specStep subscribers

/-- A caller that issues `reg(f1); reg(f2); ...; reg(fk)` on one event, as `main`
does with `Register` and `Unregister`: the array after the last call and the
outcome of every call, in call order. -/
def callEach (reg : List CB_Data → CB_CallbackType → EventResult) :
    List CB_Data → List CB_CallbackType → List CB_Data × List Outcome
  | Multicast, [] => (Multicast, [])
  | Multicast, f :: fs =>
    let r := reg Multicast f
    let rest := callEach reg r.Multicast fs
    (rest.1, r.outcome :: rest.2)

/-! ## Lemmas on lists of slots -/

theorem getElem?_at_length (pre : List CB_Data) (d : CB_Data) (suf : List CB_Data) :
    (pre ++ d :: suf)[pre.length]? = some d := by
  induction pre with
  | nil => simp
  | cons a pre ih => simpa using ih

theorem set_at_length (pre : List CB_Data) (d v : CB_Data) (suf : List CB_Data) :
    (pre ++ d :: suf).set pre.length v = pre ++ v :: suf := by
  induction pre with
  | nil => rfl
  | cons a pre ih => simp [ih]

/-- A list of slots either has no slot satisfying `p`, or splits at the first
slot that satisfies it. -/
theorem split_at_first (p : CB_Data → Prop) [DecidablePred p] (t : List CB_Data) :
    (∀ d ∈ t, ¬ p d) ∨
      ∃ xs y rest, t = xs ++ y :: rest ∧ p y ∧ ∀ d ∈ xs, ¬ p d := by
  induction t with
  | nil => left; simp
  | cons a t ih =>
    by_cases ha : p a
    · right
      exact ⟨[], a, t, rfl, ha, by simp⟩
    · rcases ih with hnone | ⟨xs, y, rest, rfl, hy, hxs⟩
      · left
        intro d hd
        rcases List.mem_cons.mp hd with rfl | hd
        · exact ha
        · exact hnone d hd
      · right
        refine ⟨a :: xs, y, rest, rfl, hy, ?_⟩
        intro d hd
        rcases List.mem_cons.mp hd with rfl | hd
        · exact ha
        · exact hxs d hd

/-! ## The scan of `CB_MulticastAddCallback` -/

theorem addLoop_found (h : CB_CallbackType) (xs : List CB_Data) :
    ∀ (pre rest : List CB_Data) (n : Nat), (∀ d ∈ xs, d.callback ≠ NULL) → xs.length < n →
      addLoop h n pre.length (pre ++ xs ++ { callback := NULL } :: rest)
        = some (pre ++ xs ++ { callback := h } :: rest, true) := by
  induction xs with
  | nil =>
    intro pre rest n _ hn
    obtain ⟨m, rfl⟩ : ∃ m, n = m + 1 := ⟨n - 1, by simp at hn; omega⟩
    simp only [addLoop, List.append_nil, getElem?_at_length, if_true, set_at_length]
  | cons x xs ih =>
    intro pre rest n hx hn
    obtain ⟨m, rfl⟩ : ∃ m, n = m + 1 := ⟨n - 1, by simp at hn; omega⟩
    have hx0 : x.callback ≠ NULL := hx x (by simp)
    have hrec := ih (pre ++ [x]) rest m (fun d hd => hx d (by simp [hd]))
      (by simp at hn; omega)
    simp only [List.length_append, List.length_singleton, List.append_assoc,
      List.singleton_append] at hrec
    simp only [addLoop, List.append_assoc, List.cons_append, getElem?_at_length, hx0,
      if_false]
    simpa using hrec

theorem addLoop_full (h : CB_CallbackType) (xs : List CB_Data) :
    ∀ (pre : List CB_Data) (n : Nat), (∀ d ∈ xs, d.callback ≠ NULL) → n ≤ xs.length →
      addLoop h n pre.length (pre ++ xs) = some (pre ++ xs, false) := by
  induction xs with
  | nil =>
    intro pre n _ hn
    obtain rfl : n = 0 := by simpa using hn
    simp [addLoop]
  | cons x xs ih =>
    intro pre n hx hn
    cases n with
    | zero => simp [addLoop]
    | succ m =>
      have hx0 : x.callback ≠ NULL := hx x (by simp)
      have hrec := ih (pre ++ [x]) m (fun d hd => hx d (by simp [hd]))
        (by simp at hn; omega)
      simp only [List.length_append, List.length_singleton, List.append_assoc,
        List.singleton_append] at hrec
      simp only [addLoop, getElem?_at_length, hx0, if_false]
      simpa using hrec

/-- Adding to an array whose first empty slot follows the occupied slots `xs`. -/
theorem add_at_first_empty (xs rest : List CB_Data) (h : CB_CallbackType)
    (hxs : ∀ d ∈ xs, d.callback ≠ NULL) (hh : h ≠ NULL) :
    CB_MulticastAddCallback (some (xs ++ { callback := NULL } :: rest))
        (xs ++ { callback := NULL } :: rest).length h
      = { cbData := some (xs ++ { callback := h } :: rest), outcome := Outcome.returned } := by
  have hloop := addLoop_found h xs [] rest (xs ++ { callback := NULL } :: rest).length hxs
    (by simp)
  simp only [List.nil_append, List.length_nil] at hloop
  have hlen : (xs ++ ({ callback := NULL } : CB_Data) :: rest).length ≠ 0 := by simp
  simp only [CB_MulticastAddCallback, hh, hlen, or_self, if_false, hloop]
  simp

/-- Adding to an array without an empty slot. -/
theorem add_when_full (t : List CB_Data) (h : CB_CallbackType)
    (ht : ∀ d ∈ t, d.callback ≠ NULL) (hh : h ≠ NULL) (hlen : t.length ≠ 0) :
    CB_MulticastAddCallback (some t) t.length h
      = { cbData := some t, outcome := Outcome.assertFailed } := by
  have hloop := addLoop_full h t [] t.length ht (le_refl _)
  simp only [List.nil_append, List.length_nil] at hloop
  simp only [CB_MulticastAddCallback, hh, hlen, or_self, if_false, hloop]
  simp

/-! ## The scan of `CB_MulticastRemoveCallback` -/

theorem removeLoop_found (h : CB_CallbackType) (xs : List CB_Data) :
    ∀ (pre rest : List CB_Data) (n : Nat), (∀ d ∈ xs, d.callback ≠ h) → xs.length < n →
      removeLoop h n pre.length (pre ++ xs ++ { callback := h } :: rest)
        = some (pre ++ xs ++ { callback := NULL } :: rest) := by
  induction xs with
  | nil =>
    intro pre rest n _ hn
    obtain ⟨m, rfl⟩ : ∃ m, n = m + 1 := ⟨n - 1, by simp at hn; omega⟩
    simp only [removeLoop, List.append_nil, getElem?_at_length, if_true, set_at_length]
  | cons x xs ih =>
    intro pre rest n hx hn
    obtain ⟨m, rfl⟩ : ∃ m, n = m + 1 := ⟨n - 1, by simp at hn; omega⟩
    have hx0 : x.callback ≠ h := hx x (by simp)
    have hrec := ih (pre ++ [x]) rest m (fun d hd => hx d (by simp [hd]))
      (by simp at hn; omega)
    simp only [List.length_append, List.length_singleton, List.append_assoc,
      List.singleton_append] at hrec
    simp only [removeLoop, List.append_assoc, List.cons_append, getElem?_at_length, hx0,
      if_false]
    simpa using hrec

theorem removeLoop_absent (h : CB_CallbackType) (xs : List CB_Data) :
    ∀ (pre : List CB_Data) (n : Nat), (∀ d ∈ xs, d.callback ≠ h) → n ≤ xs.length →
      removeLoop h n pre.length (pre ++ xs) = some (pre ++ xs) := by
  induction xs with
  | nil =>
    intro pre n _ hn
    obtain rfl : n = 0 := by simpa using hn
    simp [removeLoop]
  | cons x xs ih =>
    intro pre n hx hn
    cases n with
    | zero => simp [removeLoop]
    | succ m =>
      have hx0 : x.callback ≠ h := hx x (by simp)
      have hrec := ih (pre ++ [x]) m (fun d hd => hx d (by simp [hd]))
        (by simp at hn; omega)
      simp only [List.length_append, List.length_singleton, List.append_assoc,
        List.singleton_append] at hrec
      simp only [removeLoop, getElem?_at_length, hx0, if_false]
      simpa using hrec

/-- Removing a handle whose first occurrence follows the slots `xs`. -/
theorem remove_at_first_match (xs rest : List CB_Data) (h : CB_CallbackType)
    (hxs : ∀ d ∈ xs, d.callback ≠ h) (hh : h ≠ NULL) :
    CB_MulticastRemoveCallback (some (xs ++ { callback := h } :: rest))
        (xs ++ { callback := h } :: rest).length h
      = { cbData := some (xs ++ { callback := NULL } :: rest),
          outcome := Outcome.returned } := by
  have hloop := removeLoop_found h xs [] rest (xs ++ { callback := h } :: rest).length hxs
    (by simp)
  simp only [List.nil_append, List.length_nil] at hloop
  have hlen : (xs ++ ({ callback := h } : CB_Data) :: rest).length ≠ 0 := by simp
  simp only [CB_MulticastRemoveCallback, hh, hlen, or_self, if_false, hloop]

/-- Removing a handle that no slot holds. -/
theorem remove_when_absent (t : List CB_Data) (h : CB_CallbackType)
    (ht : ∀ d ∈ t, d.callback ≠ h) (hh : h ≠ NULL) (hlen : t.length ≠ 0) :
    CB_MulticastRemoveCallback (some t) t.length h
      = { cbData := some t, outcome := Outcome.returned } := by
  have hloop := removeLoop_absent h t [] t.length ht (le_refl _)
  simp only [List.nil_append, List.length_nil] at hloop
  simp only [CB_MulticastRemoveCallback, hh, hlen, or_self, if_false, hloop]

/-! ## Calls of `Register` and `Unregister` keep the length of the array -/

theorem addLoop_length (h : CB_CallbackType) :
    ∀ (n idx : Nat) (t : List CB_Data) (r : List CB_Data × Bool),
      addLoop h n idx t = some r → r.1.length = t.length := by
  intro n
  induction n with
  | zero =>
    intro idx t r hr
    simp only [addLoop, Option.some.injEq] at hr
    subst hr
    rfl
  | succ n ih =>
    intro idx t r hr
    simp only [addLoop] at hr
    cases hget : t[idx]? with
    | none => simp [hget] at hr
    | some d =>
      simp only [hget] at hr
      by_cases hd : d.callback = NULL
      · simp only [hd, if_true, Option.some.injEq] at hr
        subst hr
        simp
      · simp only [hd, if_false] at hr
        exact ih (idx + 1) t r hr

theorem removeLoop_length (h : CB_CallbackType) :
    ∀ (n idx : Nat) (t r : List CB_Data),
      removeLoop h n idx t = some r → r.length = t.length := by
  intro n
  induction n with
  | zero =>
    intro idx t r hr
    simp only [removeLoop, Option.some.injEq] at hr
    subst hr
    rfl
  | succ n ih =>
    intro idx t r hr
    simp only [removeLoop] at hr
    cases hget : t[idx]? with
    | none => simp [hget] at hr
    | some d =>
      simp only [hget] at hr
      by_cases hd : d.callback = h
      · simp only [hd, if_true, Option.some.injEq] at hr
        subst hr
        simp
      · simp only [hd, if_false] at hr
        exact ih (idx + 1) t r hr

theorem register_length (max : Nat) (t : List CB_Data) (h : CB_CallbackType) :
    (MULTICAST1.Register max t h).Multicast.length = t.length := by
  simp only [MULTICAST1.Register, CB_MulticastAddCallback]
  by_cases hb : h = NULL ∨ max = 0
  · simp only [hb, if_true, Option.getD_some]
  · simp only [hb, if_false]
    cases hl : addLoop h max 0 t with
    | none => simp only [Option.getD_some]
    | some r =>
      obtain ⟨arr, b⟩ := r
      have hlen := addLoop_length h max 0 t (arr, b) hl
      cases b
      · simpa using hlen
      · simpa using hlen

theorem unregister_length (max : Nat) (t : List CB_Data) (h : CB_CallbackType) :
    (MULTICAST1.Unregister max t h).Multicast.length = t.length := by
  simp only [MULTICAST1.Unregister, CB_MulticastRemoveCallback]
  by_cases hb : h = NULL ∨ max = 0
  · simp only [hb, if_true, Option.getD_some]
  · simp only [hb, if_false]
    cases hl : removeLoop h max 0 t with
    | none => simp only [Option.getD_some]
    | some r =>
      have hlen := removeLoop_length h max 0 t r hl
      simpa using hlen

theorem runOps_length (max : Nat) (ops : List Op) :
    ∀ (t : List CB_Data), (runOps max t ops).1.length = t.length := by
  induction ops with
  | nil =>
    intro t
    rfl
  | cons op ops ih =>
    intro t
    simp only [runOps]
    rw [ih]
    cases op with
    | register f => exact register_length max t f
    | unregister f => exact unregister_length max t f

/-! ## The dispatch loop -/

/-- Reading a slot inside the array returns its content without an assertion. -/
theorem get_in_range (max : Nat) (t : List CB_Data) (idx : Nat) (d : CB_Data)
    (hlen : t.length = max) (hd : t[idx]? = some d) :
    CB_MulticastGetCallback (some t) max idx
      = { value := d.callback, outcome := Outcome.returned } := by
  have hidx : idx < t.length := by
    by_contra hge
    rw [List.getElem?_eq_none (by omega)] at hd
    cases hd
  have hm0 : max ≠ 0 := by omega
  have hlt : ¬ idx ≥ max := by omega
  simp only [CB_MulticastGetCallback, hm0, hlt, or_self, if_false, hd]

/-- A dispatch over the table `t` whose occupied subscribers, when called with
`args`, leave `t` as it is and reach no assertion in the calls they make: one call
per occupied slot, in slot order, and the table afterwards is `t`; the other
storage is also as before when those subscribers leave it alone. -/
theorem invokeLoop_quiet {σ α : Type} (max : Nat) (subs : Subscribers σ α) (args : α)
    (t : List CB_Data) (hlen : t.length = max)
    (hquiet : ∀ d ∈ t, d.callback ≠ NULL →
      ∀ r, (runOps max t (subs d.callback args (t, r)).1).1 = t ∧
        ∀ o ∈ (runOps max t (subs d.callback args (t, r)).1).2, o = Outcome.returned)
    (suf : List CB_Data) :
    ∀ (pre : List CB_Data) (rest : σ) (calls : List (CB_CallbackType × α))
      (outs : List Outcome),
      t = pre ++ suf →
      (invokeLoop max subs args suf.length pre.length t rest calls outs).calls
          = calls ++ ((suf.filter (fun d => decide (d.callback ≠ NULL))).map
              (fun d => (d.callback, args))) ∧
      (invokeLoop max subs args suf.length pre.length t rest calls outs).outcome
          = Outcome.returned ∧
      (invokeLoop max subs args suf.length pre.length t rest calls outs).Multicast = t ∧
      ((∀ d ∈ t, d.callback ≠ NULL → ∀ r, (subs d.callback args (t, r)).2 = r) →
        (invokeLoop max subs args suf.length pre.length t rest calls outs).rest = rest) ∧
      ((∀ o ∈ outs, o = Outcome.returned) →
        ∀ o ∈ (invokeLoop max subs args suf.length pre.length t rest calls
          outs).calleeOutcomes, o = Outcome.returned) := by
  induction suf with
  | nil =>
    intro pre rest calls outs _
    simp [invokeLoop]
  | cons x suf ih =>
    intro pre rest calls outs ht
    have hx : t[pre.length]? = some x := by
      rw [ht]
      exact getElem?_at_length pre x suf
    have hmem : x ∈ t := by
      rw [ht]
      simp
    have hget := get_in_range max t pre.length x hlen hx
    have ht' : t = (pre ++ [x]) ++ suf := by
      rw [ht]
      simp
    by_cases hx0 : x.callback = NULL
    · have hrec := ih (pre ++ [x]) rest calls outs ht'
      simp only [List.length_append, List.length_singleton] at hrec
      simp only [invokeLoop, List.length_cons, hget, hx0, ne_eq, not_true_eq_false,
        if_false, List.filter_cons, decide_False]
      simpa using hrec
    · obtain ⟨hsame, hfine⟩ := hquiet x hmem hx0 rest
      have hrec := ih (pre ++ [x]) (subs x.callback args (t, rest)).2
        (calls ++ [(x.callback, args)])
        (outs ++ (runOps max t (subs x.callback args (t, rest)).1).2) ht'
      simp only [List.length_append, List.length_singleton] at hrec
      simp only [invokeLoop, List.length_cons, hget, hx0, ne_eq, not_false_eq_true,
        if_true, hsame, List.filter_cons, decide_True, List.map_cons]
      obtain ⟨hc, ho, hm, hr, hout⟩ := hrec
      refine ⟨?_, ho, hm, ?_, ?_⟩
      · rw [hc]
        simp
      · intro hrest
        rw [hr hrest]
        exact hrest x hmem hx0 rest
      · intro houts
        apply hout
        intro o ho'
        rcases List.mem_append.mp ho' with h | h
        · exact houts o h
        · exact hfine o h

/-- A dispatch over slots that are all empty calls nobody and changes nothing,
whatever the subscribers are. -/
theorem invokeLoop_empty {σ α : Type} (max : Nat) (subs : Subscribers σ α) (args : α)
    (t : List CB_Data) (hlen : t.length = max) (suf : List CB_Data) :
    ∀ (pre : List CB_Data) (rest : σ) (calls : List (CB_CallbackType × α))
      (outs : List Outcome),
      t = pre ++ suf → (∀ d ∈ suf, d.callback = NULL) →
      invokeLoop max subs args suf.length pre.length t rest calls outs
        = { calls := calls, outcome := Outcome.returned, Multicast := t, rest := rest,
            calleeOutcomes := outs } := by
  induction suf with
  | nil =>
    intro pre rest calls outs _ _
    simp [invokeLoop]
  | cons x suf ih =>
    intro pre rest calls outs ht hnull
    have hx : t[pre.length]? = some x := by
      rw [ht]
      exact getElem?_at_length pre x suf
    have hget := get_in_range max t pre.length x hlen hx
    have hx0 : x.callback = NULL := hnull x (by simp)
    have hrec := ih (pre ++ [x]) rest calls outs (by rw [ht]; simp)
      (fun d hd => hnull d (by simp [hd]))
    simp only [List.length_append, List.length_singleton] at hrec
    simp only [invokeLoop, List.length_cons, hget, hx0, ne_eq, not_true_eq_false, if_false]
    exact hrec

/-- Whatever the subscribers do, no `CB_MulticastGetCallback` call of the loop
reaches the assertion: the loop entered at index `idx` with `n` iterations left,
`idx + n = max`, on an array of length `max`, ends normally. -/
theorem invokeLoop_returns {σ α : Type} (max : Nat) (subs : Subscribers σ α) (args : α) :
    ∀ (n idx : Nat) (t : List CB_Data) (rest : σ) (calls : List (CB_CallbackType × α))
      (outs : List Outcome),
      t.length = max → idx + n = max →
      (invokeLoop max subs args n idx t rest calls outs).outcome = Outcome.returned := by
  intro n
  induction n with
  | zero =>
    intro idx t rest calls outs _ _
    rfl
  | succ n ih =>
    intro idx t rest calls outs hlen hsum
    have hidx : idx < t.length := by omega
    have hget := get_in_range max t idx t[idx] hlen (List.getElem?_eq_getElem hidx)
    by_cases hx0 : t[idx].callback = NULL
    · simp only [invokeLoop, hget, hx0, ne_eq, not_true_eq_false, if_false]
      exact ih (idx + 1) t rest calls outs hlen (by omega)
    · simp only [invokeLoop, hget, hx0, ne_eq, not_false_eq_true, if_true]
      exact ih (idx + 1) _ _ _ _ (by rw [runOps_length]; exact hlen) (by omega)

/-! ## Index form of a split at the first matching slot -/

theorem split_index_facts (p : CB_Data → Prop) (xs rest : List CB_Data) (y v : CB_Data)
    (hxs : ∀ d ∈ xs, ¬ p d) :
    xs.length < (xs ++ y :: rest).length ∧
      (xs ++ y :: rest)[xs.length]? = some y ∧
      (∀ j, j < xs.length → ∀ d, (xs ++ y :: rest)[j]? = some d → ¬ p d) ∧
      (xs ++ y :: rest).set xs.length v = xs ++ v :: rest := by
  refine ⟨by simp, getElem?_at_length xs y rest, ?_, set_at_length xs y v rest⟩
  intro j hj d hd
  rw [List.getElem?_append_left hj] at hd
  exact hxs d (List.getElem?_mem hd)

/-! ## The facade functions on a table of length `max` -/

theorem register_first_empty (max : Nat) (xs rest : List CB_Data) (h : CB_CallbackType)
    (hmax : (xs ++ { callback := NULL } :: rest).length = max)
    (hxs : ∀ d ∈ xs, d.callback ≠ NULL) (hh : h ≠ NULL) :
    MULTICAST1.Register max (xs ++ { callback := NULL } :: rest) h
      = { Multicast := xs ++ { callback := h } :: rest, outcome := Outcome.returned } := by
  subst hmax
  simp only [MULTICAST1.Register, add_at_first_empty xs rest h hxs hh, Option.getD_some]

theorem register_full (max : Nat) (t : List CB_Data) (h : CB_CallbackType)
    (hmax : t.length = max) (hcap : max ≠ 0)
    (ht : ∀ d ∈ t, d.callback ≠ NULL) (hh : h ≠ NULL) :
    MULTICAST1.Register max t h = { Multicast := t, outcome := Outcome.assertFailed } := by
  subst hmax
  simp only [MULTICAST1.Register, add_when_full t h ht hh hcap, Option.getD_some]

theorem unregister_first_match (max : Nat) (xs rest : List CB_Data) (h : CB_CallbackType)
    (hmax : (xs ++ { callback := h } :: rest).length = max)
    (hxs : ∀ d ∈ xs, d.callback ≠ h) (hh : h ≠ NULL) :
    MULTICAST1.Unregister max (xs ++ { callback := h } :: rest) h
      = { Multicast := xs ++ { callback := NULL } :: rest, outcome := Outcome.returned } := by
  subst hmax
  simp only [MULTICAST1.Unregister, remove_at_first_match xs rest h hxs hh, Option.getD_some]

theorem unregister_absent (max : Nat) (t : List CB_Data) (h : CB_CallbackType)
    (hmax : t.length = max) (hcap : max ≠ 0)
    (ht : ∀ d ∈ t, d.callback ≠ h) (hh : h ≠ NULL) :
    MULTICAST1.Unregister max t h = { Multicast := t, outcome := Outcome.returned } := by
  subst hmax
  simp only [MULTICAST1.Unregister, remove_when_absent t h ht hh hcap, Option.getD_some]

theorem register0_eq : MULTICAST0.Register = MULTICAST1.Register := rfl

theorem unregister0_eq : MULTICAST0.Unregister = MULTICAST1.Unregister := rfl

theorem invoke_calls {σ α : Type} (max : Nat) (subs : Subscribers σ α) (t : List CB_Data)
    (rest : σ) (args : α) (hlen : t.length = max)
    (hquiet : ∀ d ∈ t, d.callback ≠ NULL →
      ∀ r, (runOps max t (subs d.callback args (t, r)).1).1 = t ∧
        ∀ o ∈ (runOps max t (subs d.callback args (t, r)).1).2, o = Outcome.returned) :
    (invokeLoop max subs args max 0 t rest [] []).calls
        = (t.filter (fun d => decide (d.callback ≠ NULL))).map (fun d => (d.callback, args)) ∧
    (invokeLoop max subs args max 0 t rest [] []).outcome = Outcome.returned ∧
    (invokeLoop max subs args max 0 t rest [] []).Multicast = t ∧
    ((∀ d ∈ t, d.callback ≠ NULL → ∀ r, (subs d.callback args (t, r)).2 = r) →
      (invokeLoop max subs args max 0 t rest [] []).rest = rest) ∧
    (∀ o ∈ (invokeLoop max subs args max 0 t rest [] []).calleeOutcomes,
      o = Outcome.returned) := by
  have hloop := invokeLoop_quiet max subs args t hlen hquiet t [] rest [] [] rfl
  simp only [List.nil_append, List.length_nil, hlen] at hloop
  obtain ⟨hc, ho, hm, hr, hout⟩ := hloop
  exact ⟨hc, ho, hm, hr, hout (by simp)⟩

/-- Registering the non-null handles `fs` one after another into a table whose
occupied slots `xs` are followed by `m` empty slots, when `fs` fits. -/
theorem callEach_register (fs : List CB_CallbackType) :
    ∀ (xs : List CB_Data) (m max : Nat), xs.length + m = max →
      (∀ d ∈ xs, d.callback ≠ NULL) → (∀ f ∈ fs, f ≠ NULL) → fs.length ≤ m →
      callEach (MULTICAST1.Register max) (xs ++ List.replicate m { callback := NULL }) fs
        = (xs ++ fs.map (fun f => { callback := f })
              ++ List.replicate (m - fs.length) { callback := NULL },
            List.replicate fs.length Outcome.returned) := by
  induction fs with
  | nil =>
    intro xs m max _ _ _ _
    simp [callEach]
  | cons f fs ih =>
    intro xs m max hmax hxs hfs hm
    obtain ⟨k, rfl⟩ : ∃ k, m = k + 1 := ⟨m - 1, by simp at hm; omega⟩
    have hf : f ≠ NULL := hfs f (by simp)
    have hreg := register_first_empty max xs (List.replicate k { callback := NULL }) f
      (by simp; omega) hxs hf
    have hrec := ih (xs ++ [{ callback := f }]) k max (by simp; omega)
      (by
        intro d hd
        rcases List.mem_append.mp hd with hd | hd
        · exact hxs d hd
        · simp at hd
          subst hd
          exact hf)
      (fun g hg => hfs g (by simp [hg])) (by simp at hm; omega)
    simp only [List.append_assoc, List.singleton_append] at hrec
    simp only [callEach, List.replicate_succ, hreg, hrec, List.map_cons, List.length_cons,
      List.append_assoc, List.cons_append, Nat.add_sub_add_right]

/-- A dispatch over an all-empty table makes no call and changes nothing, whatever
the subscribers are. -/
theorem invoke_initial {σ α : Type} (max : Nat) (subs : Subscribers σ α) (rest : σ)
    (args : α) :
    invokeLoop max subs args max 0 (initialMulticast max) rest [] []
      = { calls := [], outcome := Outcome.returned, Multicast := initialMulticast max,
          rest := rest, calleeOutcomes := [] } := by
  have hlen : (initialMulticast max).length = max := by simp [initialMulticast]
  have hnull : ∀ d ∈ initialMulticast max, d.callback = NULL := by
    intro d hd
    obtain rfl := List.eq_of_mem_replicate hd
    rfl
  have hloop := invokeLoop_empty max subs args (initialMulticast max) hlen
    (initialMulticast max) [] rest [] [] rfl hnull
  simp only [List.length_nil, hlen] at hloop
  exact hloop

/-! ## The occupied slots as a multiset -/

theorem occupiedHandles_append (xs ys : List CB_Data) :
    occupiedHandles (xs ++ ys) = occupiedHandles xs + occupiedHandles ys := by
  simp [occupiedHandles, List.filter_append]

theorem occupiedHandles_cons_null (ys : List CB_Data) :
    occupiedHandles ({ callback := NULL } :: ys) = occupiedHandles ys := by
  simp [occupiedHandles, List.filter_cons]

theorem occupiedHandles_cons (f : CB_CallbackType) (hf : f ≠ NULL) (ys : List CB_Data) :
    occupiedHandles ({ callback := f } :: ys) = f ::ₘ occupiedHandles ys := by
  simp [occupiedHandles, List.filter_cons, hf]

theorem not_mem_occupiedHandles (f : CB_CallbackType) (xs : List CB_Data)
    (hxs : ∀ d ∈ xs, d.callback ≠ f) : f ∉ occupiedHandles xs := by
  intro hmem
  simp only [occupiedHandles, Multiset.mem_coe, List.mem_map] at hmem
  obtain ⟨d, hd, hdf⟩ := hmem
  exact hxs d (List.mem_of_mem_filter hd) hdf

theorem card_occupiedHandles_le (t : List CB_Data) :
    Multiset.card (occupiedHandles t) ≤ t.length := by
  simp only [occupiedHandles, Multiset.coe_card, List.length_map]
  exact List.length_filter_le _ t

/-- The occupied slots number as many as the table is long exactly when no slot
is empty. -/
theorem card_occupiedHandles_eq_length (t : List CB_Data) :
    Multiset.card (occupiedHandles t) = t.length ↔ ∀ d ∈ t, d.callback ≠ NULL := by
  rcases split_at_first (fun d => d.callback = NULL) t with hnone | ⟨xs, y, rest, rfl, hy, hxs⟩
  · constructor
    · intro _
      exact hnone
    · intro _
      have hall : t.filter (fun d => decide (d.callback ≠ NULL)) = t := by
        apply List.filter_eq_self.mpr
        intro d hd
        simpa using hnone d hd
      simp only [occupiedHandles, Multiset.coe_card, List.length_map, hall]
  · obtain ⟨y0⟩ := y
    simp only at hy
    subst hy
    constructor
    · intro hcard
      rw [occupiedHandles_append, occupiedHandles_cons_null, Multiset.card_add] at hcard
      have h1 := card_occupiedHandles_le xs
      have h2 := card_occupiedHandles_le rest
      simp only [List.length_append, List.length_cons] at hcard
      omega
    · intro hall
      exact absurd rfl (hall { callback := NULL } (by simp))

/-- One call that returns normally moves the occupied slots as the abstract step
moves the subscriber multiset, and keeps the length of the table. -/
theorem applyOp_refines (max : Nat) (t : List CB_Data) (op : Op)
    (hlen : t.length = max) (hop : op.callback ≠ NULL)
    (hok : (applyOp max t op).outcome = Outcome.returned) :
    (applyOp max t op).Multicast.length = max ∧
      occupiedHandles (applyOp max t op).Multicast = specStep (occupiedHandles t) op := by
  have hcap : max ≠ 0 := by
    intro h0
    subst h0
    cases op with
    | register f =>
      simp [applyOp, MULTICAST1.Register, CB_MulticastAddCallback] at hok
    | unregister f =>
      simp [applyOp, MULTICAST1.Unregister, CB_MulticastRemoveCallback] at hok
  cases op with
  | register f =>
    have hf : f ≠ NULL := hop
    simp only [applyOp, specStep] at hok ⊢
    rcases split_at_first (fun d => d.callback = NULL) t with
      hnone | ⟨xs, y, rest, rfl, hy, hxs⟩
    · rw [register_full max t f hlen hcap hnone hf] at hok
      cases hok
    · obtain ⟨y0⟩ := y
      simp only at hy
      subst hy
      rw [register_first_empty max xs rest f hlen hxs hf]
      refine ⟨by simpa using hlen, ?_⟩
      simp only [occupiedHandles_append, occupiedHandles_cons_null,
        occupiedHandles_cons f hf, Multiset.add_cons]
  | unregister f =>
    have hf : f ≠ NULL := hop
    simp only [applyOp, specStep] at hok ⊢
    rcases split_at_first (fun d => d.callback = f) t with
      hnone | ⟨xs, y, rest, rfl, hy, hxs⟩
    · rw [unregister_absent max t f hlen hcap hnone hf]
      exact ⟨hlen, (Multiset.erase_of_not_mem (not_mem_occupiedHandles f t hnone)).symm⟩
    · obtain ⟨y0⟩ := y
      simp only at hy
      subst hy
      rw [unregister_first_match max xs rest y0 hlen hxs hf]
      refine ⟨by simpa using hlen, ?_⟩
      simp only [occupiedHandles_append, occupiedHandles_cons_null,
        occupiedHandles_cons y0 hf]
      rw [Multiset.erase_add_right_neg _ (not_mem_occupiedHandles y0 xs hxs),
        Multiset.erase_cons_head]

/-- A sequence of calls that all return normally moves the occupied slots as the
abstract run moves the subscriber multiset, and keeps the length of the table. -/
theorem runOps_refines (max : Nat) (ops : List Op) :
    ∀ (t : List CB_Data), t.length = max → (∀ op ∈ ops, op.callback ≠ NULL) →
      (∀ o ∈ (runOps max t ops).2, o = Outcome.returned) →
      (runOps max t ops).1.length = max ∧
        occupiedHandles (runOps max t ops).1 = specRun (occupiedHandles t) ops := by
  induction ops with
  | nil =>
    intro t hlen _ _
    exact ⟨hlen, rfl⟩
  | cons op ops ih =>
    intro t hlen hops hok
    have hstep := applyOp_refines max t op hlen (hops op (by simp))
      (hok _ (by simp [runOps]))
    have hrec := ih (applyOp max t op).Multicast hstep.1
      (fun o ho => hops o (by simp [ho]))
      (fun o ho => hok o (by simp [runOps, ho]))
    simp only [runOps, specRun, List.foldl_cons]
    refine ⟨hrec.1, ?_⟩
    rw [hrec.2, hstep.2]
    rfl

/-- The outcomes of the first `k` calls of a sequence are the first `k` outcomes
of the whole sequence. -/
theorem runOps_take (max : Nat) (ops : List Op) :
    ∀ (t : List CB_Data) (k : Nat),
      (runOps max t (ops.take k)).2 = (runOps max t ops).2.take k := by
  induction ops with
  | nil =>
    intro t k
    simp [runOps]
  | cons op ops ih =>
    intro t k
    cases k with
    | zero => simp [runOps]
    | succ k => simp [runOps, ih]

/-- On a table of length `max`, registering a non-null handle reaches `assert(0)`
exactly when every slot is occupied. -/
theorem register_fails_iff_card (max : Nat) (t : List CB_Data) (f : CB_CallbackType)
    (hlen : t.length = max) (hf : f ≠ NULL) :
    (MULTICAST1.Register max t f).outcome = Outcome.assertFailed
      ↔ Multiset.card (occupiedHandles t) = max := by
  by_cases hcap : max = 0
  · subst hcap
    have ht : t = [] := List.length_eq_zero.mp hlen
    subst ht
    simp [MULTICAST1.Register, CB_MulticastAddCallback, occupiedHandles]
  · rw [← hlen, card_occupiedHandles_eq_length]
    rcases split_at_first (fun d => d.callback = NULL) t with
      hnone | ⟨xs, y, rest, rfl, hy, hxs⟩
    · rw [hlen, register_full max t f hlen hcap hnone hf]
      exact ⟨fun _ => hnone, fun _ => rfl⟩
    · obtain ⟨y0⟩ := y
      simp only at hy
      subst hy
      rw [hlen, register_first_empty max xs rest f hlen hxs hf]
      constructor
      · intro hbad
        cases hbad
      · intro hall
        exact absurd rfl (hall { callback := NULL } (by simp))

theorem occupiedHandles_initial (max : Nat) : occupiedHandles (initialMulticast max) = 0 := by
  have hdrop : (initialMulticast max).filter (fun d => decide (d.callback ≠ NULL)) = [] := by
    apply List.filter_eq_nil_iff.mpr
    intro d hd
    obtain rfl := List.eq_of_mem_replicate hd
    simp
  simp only [occupiedHandles, hdrop, List.map_nil, Multiset.coe_nil]

/-- Inert subscribers leave every table as it is and make no call that could fail. -/
theorem inert_quiet (σ α : Type) (max : Nat) (cb : CB_CallbackType) (a : α)
    (t : List CB_Data) (r : σ) :
    (runOps max t (inertSubscribers σ α cb a (t, r)).1).1 = t ∧
      ∀ o ∈ (runOps max t (inertSubscribers σ α cb a (t, r)).1).2, o = Outcome.returned := by
  simp [inertSubscribers, runOps]

/-- C1: Add uses a first-empty-slot policy.  For a table `t` of length `max` with
at least one empty slot and a non-null handle `h`, there is an index `i` that is
the lowest index of an empty slot, `CB_MulticastAddCallback` (and `Register`, which
delegates to it) returns without failing an assertion, and the table afterwards
is `t` with slot `i` set to `h`; every slot other than `i` reads as before. -/
theorem C1_add_fills_first_empty_slot (max : Nat) (t : List CB_Data) (h : CB_CallbackType)
    (hlen : t.length = max) (_hcap : 1 ≤ max) (hh : h ≠ NULL)
    (hempty : ∃ d ∈ t, d.callback = NULL) :
    ∃ i, i < max ∧ t[i]? = some { callback := NULL } ∧
      (∀ j, j < i → ∀ d, t[j]? = some d → d.callback ≠ NULL) ∧
      CB_MulticastAddCallback (some t) max h
        = { cbData := some (t.set i { callback := h }), outcome := Outcome.returned } ∧
      MULTICAST1.Register max t h
        = { Multicast := t.set i { callback := h }, outcome := Outcome.returned } ∧
      (∀ j, j ≠ i → (t.set i { callback := h })[j]? = t[j]?) := by
  rcases split_at_first (fun d => d.callback = NULL) t with hnone | ⟨xs, y, rest, rfl, hy, hxs⟩
  · obtain ⟨d, hd, hd0⟩ := hempty
    exact absurd hd0 (hnone d hd)
  · obtain ⟨y0⟩ := y
    simp only at hy
    subst hy
    obtain ⟨hi, hget, hbelow, hset⟩ :=
      split_index_facts (fun d => d.callback = NULL) xs rest { callback := NULL }
        { callback := h } hxs
    subst hlen
    refine ⟨xs.length, hi, hget, hbelow, ?_, ?_, ?_⟩
    · rw [hset]
      exact add_at_first_empty xs rest h hxs hh
    · rw [hset]
      exact register_first_empty _ xs rest h rfl hxs hh
    · intro j hj
      exact List.getElem?_set_ne (Ne.symm hj)

/-- Witness of C1 on the table `[5, empty, empty]` and the handle `7`. -/
theorem C1_add_fills_first_empty_slot_witness :
    ([{ callback := 5 }, { callback := NULL }, { callback := NULL }] : List CB_Data).length = 3 ∧
    1 ≤ 3 ∧ (7 : CB_CallbackType) ≠ NULL ∧
    (∃ d ∈ ([{ callback := 5 }, { callback := NULL }, { callback := NULL }] : List CB_Data),
      d.callback = NULL) ∧
    ∃ i, i < 3 ∧
      ([{ callback := 5 }, { callback := NULL }, { callback := NULL }] : List CB_Data)[i]?
        = some { callback := NULL } ∧
      (∀ j, j < i → ∀ d,
        ([{ callback := 5 }, { callback := NULL }, { callback := NULL }] : List CB_Data)[j]?
          = some d → d.callback ≠ NULL) ∧
      CB_MulticastAddCallback
          (some [{ callback := 5 }, { callback := NULL }, { callback := NULL }]) 3 7
        = { cbData := some (([{ callback := 5 }, { callback := NULL }, { callback := NULL }] :
              List CB_Data).set i { callback := 7 }),
            outcome := Outcome.returned } ∧
      MULTICAST1.Register 3 [{ callback := 5 }, { callback := NULL }, { callback := NULL }] 7
        = { Multicast := ([{ callback := 5 }, { callback := NULL }, { callback := NULL }] :
              List CB_Data).set i { callback := 7 },
            outcome := Outcome.returned } ∧
      (∀ j, j ≠ i →
        (([{ callback := 5 }, { callback := NULL }, { callback := NULL }] :
            List CB_Data).set i { callback := 7 })[j]?
          = ([{ callback := 5 }, { callback := NULL }, { callback := NULL }] :
              List CB_Data)[j]?) :=
  ⟨rfl, by decide, by decide, ⟨{ callback := NULL }, by simp, rfl⟩,
    C1_add_fills_first_empty_slot 3
      [{ callback := 5 }, { callback := NULL }, { callback := NULL }] 7 rfl (by decide)
      (by decide) ⟨{ callback := NULL }, by simp, rfl⟩⟩

/-- C2: Add on a full table is a fatal contract violation.  For a table `t` of
length `max >= 1` and a non-null handle `h`, `CB_MulticastAddCallback` reaches
`assert(0)` exactly when no slot of `t` is empty, and then the table is `t`
unchanged. -/
theorem C2_add_full_table_is_fatal (max : Nat) (t : List CB_Data) (h : CB_CallbackType)
    (hlen : t.length = max) (hcap : 1 ≤ max) (hh : h ≠ NULL) :
    ((CB_MulticastAddCallback (some t) max h).outcome = Outcome.assertFailed
        ↔ ∀ d ∈ t, d.callback ≠ NULL) ∧
    ((CB_MulticastAddCallback (some t) max h).outcome = Outcome.assertFailed
        → (CB_MulticastAddCallback (some t) max h).cbData = some t) := by
  subst hlen
  rcases split_at_first (fun d => d.callback = NULL) t with hnone | ⟨xs, y, rest, rfl, hy, hxs⟩
  · have hfull := add_when_full t h hnone hh (by omega)
    rw [hfull]
    exact ⟨⟨fun _ => hnone, fun _ => rfl⟩, fun _ => rfl⟩
  · obtain ⟨y0⟩ := y
    simp only at hy
    subst hy
    rw [add_at_first_empty xs rest h hxs hh]
    refine ⟨⟨fun hbad => (by cases hbad), fun hall => ?_⟩, fun hbad => (by cases hbad)⟩
    exact absurd rfl (hall { callback := NULL } (by simp))

/-- Witness of C2 on the full table `[5, 6]` and the handle `7`. -/
theorem C2_add_full_table_is_fatal_witness :
    ([{ callback := 5 }, { callback := 6 }] : List CB_Data).length = 2 ∧ 1 ≤ 2 ∧
    (7 : CB_CallbackType) ≠ NULL ∧
    ((CB_MulticastAddCallback (some [{ callback := 5 }, { callback := 6 }]) 2 7).outcome
          = Outcome.assertFailed
        ↔ ∀ d ∈ ([{ callback := 5 }, { callback := 6 }] : List CB_Data), d.callback ≠ NULL) ∧
    ((CB_MulticastAddCallback (some [{ callback := 5 }, { callback := 6 }]) 2 7).outcome
          = Outcome.assertFailed
        → (CB_MulticastAddCallback (some [{ callback := 5 }, { callback := 6 }]) 2 7).cbData
          = some [{ callback := 5 }, { callback := 6 }]) :=
  ⟨rfl, by decide, by decide,
    C2_add_full_table_is_fatal 2 [{ callback := 5 }, { callback := 6 }] 7 rfl (by decide)
      (by decide)⟩

/-- C3: for every capacity `C >= 1`, starting from the all-empty table of length
`C`, registering `C` non-null callbacks one after another returns normally every
time, and registering one more non-null callback reaches `assert(0)` and leaves
the table as it was.  The callbacks need not be distinct for this to hold, so it
holds in particular for distinct ones. -/
theorem C3_capacity_then_fatal (C : Nat) (fs : List CB_CallbackType) (g : CB_CallbackType)
    (hC : 1 ≤ C) (hlen : fs.length = C) (hfs : ∀ f ∈ fs, f ≠ NULL) (hg : g ≠ NULL) :
    (callEach (MULTICAST0.Register C) (initialMulticast C) fs).2
        = List.replicate C Outcome.returned ∧
    MULTICAST0.Register C (callEach (MULTICAST0.Register C) (initialMulticast C) fs).1 g
        = { Multicast := (callEach (MULTICAST0.Register C) (initialMulticast C) fs).1,
            outcome := Outcome.assertFailed } := by
  have hseq := callEach_register fs [] C C (by simp) (by simp) hfs (by omega)
  simp only [List.nil_append] at hseq
  rw [register0_eq]
  unfold initialMulticast
  rw [hseq]
  subst hlen
  refine ⟨rfl, ?_⟩
  simp only [Nat.sub_self, List.replicate_zero, List.append_nil]
  refine register_full _ _ g (by simp) (by omega) ?_ hg
  intro d hd
  obtain ⟨f, hf, rfl⟩ := List.mem_map.mp hd
  exact hfs f hf

/-- Witness of C3 with capacity `2`, the callbacks `5`, `6` and then `7`. -/
theorem C3_capacity_then_fatal_witness :
    1 ≤ 2 ∧ ([5, 6] : List CB_CallbackType).length = 2 ∧
    (∀ f ∈ ([5, 6] : List CB_CallbackType), f ≠ NULL) ∧ (7 : CB_CallbackType) ≠ NULL ∧
    (callEach (MULTICAST0.Register 2) (initialMulticast 2) [5, 6]).2
        = List.replicate 2 Outcome.returned ∧
    MULTICAST0.Register 2 (callEach (MULTICAST0.Register 2) (initialMulticast 2) [5, 6]).1 7
        = { Multicast := (callEach (MULTICAST0.Register 2) (initialMulticast 2) [5, 6]).1,
            outcome := Outcome.assertFailed } :=
  ⟨by decide, rfl, by decide, by decide,
    C3_capacity_then_fatal 2 [5, 6] 7 (by decide) rfl (by decide) (by decide)⟩

/-- C4: Remove clears only the first match.  For a table `t` of length
`max >= 1` and a non-null handle `h` that occurs in it, there is an index `i` that is
the lowest index of a slot holding `h`, `CB_MulticastRemoveCallback` returns
normally, and the table afterwards is `t` with slot `i` set to empty; every slot
other than `i`, a later slot holding `h` included, reads as before. -/
theorem C4_remove_clears_first_match (max : Nat) (t : List CB_Data) (h : CB_CallbackType)
    (hlen : t.length = max) (_hcap : 1 ≤ max) (hh : h ≠ NULL)
    (hocc : ∃ d ∈ t, d.callback = h) :
    ∃ i, i < max ∧ t[i]? = some { callback := h } ∧
      (∀ j, j < i → ∀ d, t[j]? = some d → d.callback ≠ h) ∧
      CB_MulticastRemoveCallback (some t) max h
        = { cbData := some (t.set i { callback := NULL }), outcome := Outcome.returned } ∧
      (∀ j, j ≠ i → (t.set i { callback := NULL })[j]? = t[j]?) := by
  rcases split_at_first (fun d => d.callback = h) t with hnone | ⟨xs, y, rest, rfl, hy, hxs⟩
  · obtain ⟨d, hd, hd0⟩ := hocc
    exact absurd hd0 (hnone d hd)
  · obtain ⟨y0⟩ := y
    simp only at hy
    subst hy
    obtain ⟨hi, hget, hbelow, hset⟩ :=
      split_index_facts (fun d => d.callback = y0) xs rest { callback := y0 }
        { callback := NULL } hxs
    subst hlen
    refine ⟨xs.length, hi, hget, hbelow, ?_, ?_⟩
    · rw [hset]
      exact remove_at_first_match xs rest y0 hxs hh
    · intro j hj
      exact List.getElem?_set_ne (Ne.symm hj)

/-- Witness of C4 on the table `[5, 6, 5]`, where the handle `5` occurs twice. -/
theorem C4_remove_clears_first_match_witness :
    ([{ callback := 5 }, { callback := 6 }, { callback := 5 }] : List CB_Data).length = 3 ∧
    1 ≤ 3 ∧ (5 : CB_CallbackType) ≠ NULL ∧
    (∃ d ∈ ([{ callback := 5 }, { callback := 6 }, { callback := 5 }] : List CB_Data),
      d.callback = 5) ∧
    ∃ i, i < 3 ∧
      ([{ callback := 5 }, { callback := 6 }, { callback := 5 }] : List CB_Data)[i]?
        = some { callback := 5 } ∧
      (∀ j, j < i → ∀ d,
        ([{ callback := 5 }, { callback := 6 }, { callback := 5 }] : List CB_Data)[j]?
          = some d → d.callback ≠ 5) ∧
      CB_MulticastRemoveCallback
          (some [{ callback := 5 }, { callback := 6 }, { callback := 5 }]) 3 5
        = { cbData := some (([{ callback := 5 }, { callback := 6 }, { callback := 5 }] :
              List CB_Data).set i { callback := NULL }),
            outcome := Outcome.returned } ∧
      (∀ j, j ≠ i →
        (([{ callback := 5 }, { callback := 6 }, { callback := 5 }] :
            List CB_Data).set i { callback := NULL })[j]?
          = ([{ callback := 5 }, { callback := 6 }, { callback := 5 }] : List CB_Data)[j]?) :=
  ⟨rfl, by decide, by decide, ⟨{ callback := 5 }, by simp, rfl⟩,
    C4_remove_clears_first_match 3
      [{ callback := 5 }, { callback := 6 }, { callback := 5 }] 5 rfl (by decide)
      (by decide) ⟨{ callback := 5 }, by simp, rfl⟩⟩

/-- C5: unregistering a callback that is not registered is a no-op.  For a table
`t` of length `max >= 1` and a non-null handle `h` held by no slot,
`CB_MulticastRemoveCallback` and `Unregister` return normally, without reaching
`assert(0)`, and the table afterwards is exactly `t`. -/
theorem C5_remove_absent_is_noop (max : Nat) (t : List CB_Data) (h : CB_CallbackType)
    (hlen : t.length = max) (hcap : 1 ≤ max) (hh : h ≠ NULL)
    (habs : ∀ d ∈ t, d.callback ≠ h) :
    CB_MulticastRemoveCallback (some t) max h
        = { cbData := some t, outcome := Outcome.returned } ∧
    MULTICAST1.Unregister max t h = { Multicast := t, outcome := Outcome.returned } := by
  subst hlen
  exact ⟨remove_when_absent t h habs hh (by omega),
    unregister_absent _ t h rfl (by omega) habs hh⟩

/-- Witness of C5 on the table `[empty, 6, empty]` and the absent handle `5`, the
state of the second `Unregister(&SysDataCallback1)` of `main`. -/
theorem C5_remove_absent_is_noop_witness :
    ([{ callback := NULL }, { callback := 6 }, { callback := NULL }] : List CB_Data).length = 3 ∧
    1 ≤ 3 ∧ (5 : CB_CallbackType) ≠ NULL ∧
    (∀ d ∈ ([{ callback := NULL }, { callback := 6 }, { callback := NULL }] : List CB_Data),
      d.callback ≠ 5) ∧
    CB_MulticastRemoveCallback
        (some [{ callback := NULL }, { callback := 6 }, { callback := NULL }]) 3 5
      = { cbData := some [{ callback := NULL }, { callback := 6 }, { callback := NULL }],
          outcome := Outcome.returned } ∧
    MULTICAST1.Unregister 3 [{ callback := NULL }, { callback := 6 }, { callback := NULL }] 5
      = { Multicast := [{ callback := NULL }, { callback := 6 }, { callback := NULL }],
          outcome := Outcome.returned } :=
  ⟨rfl, by decide, by decide, by decide,
    C5_remove_absent_is_noop 3
      [{ callback := NULL }, { callback := 6 }, { callback := NULL }] 5 rfl (by decide)
      (by decide) (by decide)⟩

/-- C6, as stated, fails: on the table `[5, 6]` of capacity `2`, when the
subscriber `5` calls `Unregister(6)` before it returns, `Invoke(true)` calls `5`,
then reads slot `1` empty, and so makes the single call `5(true)`, although the
occupied slots of the table it was called on are `5` and `6`. -/
theorem C6_counterexample :
    ([{ callback := 5 }, { callback := 6 }] : List CB_Data).length = 2 ∧
    (MULTICAST1.Invoke 2 (callingSubscriber Unit Bool 5 [Op.unregister 6])
        [{ callback := 5 }, { callback := 6 }] () true).calls = [(5, true)] ∧
    (([{ callback := 5 }, { callback := 6 }] : List CB_Data).filter
        (fun d => decide (d.callback ≠ NULL))).map (fun d => (d.callback, true))
      = [(5, true), (6, true)] ∧
    (MULTICAST1.Invoke 2 (callingSubscriber Unit Bool 5 [Op.unregister 6])
        [{ callback := 5 }, { callback := 6 }] () true).Multicast
      = [{ callback := 5 }, { callback := NULL }] := by
  decide

/-- C6, amended: Invoke calls exactly the occupied slots in ascending slot order
when the subscribers it calls leave the table alone.  For a table `t` of length
`max` and arguments `args`, if every subscriber in an occupied slot of `t`, called
with `args`, leaves the table as `t` (the `Register`/`Unregister` calls it makes, if
any, reach no assertion and leave `t`), then the calls made by `Invoke` are the non-empty
handles of `t` read from index `0` upwards, each paired with `args`: one call per
occupied slot, none for an empty slot; the dispatch reaches no assertion and the
table afterwards is `t`. -/
theorem C6_invoke_calls_occupied_slots_in_order {σ arg1 : Type} (max : Nat)
    (subs : Subscribers σ arg1) (t : List CB_Data) (rest : σ) (args : arg1)
    (hlen : t.length = max)
    (hquiet : ∀ d ∈ t, d.callback ≠ NULL →
      ∀ r, (runOps max t (subs d.callback args (t, r)).1).1 = t ∧
        ∀ o ∈ (runOps max t (subs d.callback args (t, r)).1).2, o = Outcome.returned) :
    (MULTICAST1.Invoke max subs t rest args).calls
        = (t.filter (fun d => decide (d.callback ≠ NULL))).map (fun d => (d.callback, args)) ∧
    (MULTICAST1.Invoke max subs t rest args).outcome = Outcome.returned ∧
    (MULTICAST1.Invoke max subs t rest args).calls.length
        = t.countP (fun d => decide (d.callback ≠ NULL)) ∧
    (MULTICAST1.Invoke max subs t rest args).Multicast = t := by
  obtain ⟨hc, ho, hm, _, _⟩ := invoke_calls max subs t rest args hlen hquiet
  unfold MULTICAST1.Invoke
  refine ⟨hc, ho, ?_, hm⟩
  rw [hc]
  simp [List.countP_eq_length_filter]

/-- Witness of C6 amended on the table `[5, empty, 6]` with the argument `true`, where
the subscriber `5` calls `Register(9)` and then `Unregister(9)`, which leaves the
table as it was. -/
theorem C6_invoke_calls_occupied_slots_in_order_witness :
    ([{ callback := 5 }, { callback := NULL }, { callback := 6 }] : List CB_Data).length = 3 ∧
    (∀ d ∈ ([{ callback := 5 }, { callback := NULL }, { callback := 6 }] : List CB_Data),
      d.callback ≠ NULL →
      ∀ r, (runOps 3 [{ callback := 5 }, { callback := NULL }, { callback := 6 }]
        (callingSubscriber Unit Bool 5 [Op.register 9, Op.unregister 9] d.callback true
          ([{ callback := 5 }, { callback := NULL }, { callback := 6 }], r)).1).1
        = [{ callback := 5 }, { callback := NULL }, { callback := 6 }] ∧
        ∀ o ∈ (runOps 3 [{ callback := 5 }, { callback := NULL }, { callback := 6 }]
          (callingSubscriber Unit Bool 5 [Op.register 9, Op.unregister 9] d.callback true
            ([{ callback := 5 }, { callback := NULL }, { callback := 6 }], r)).1).2,
          o = Outcome.returned) ∧
    (MULTICAST1.Invoke 3 (callingSubscriber Unit Bool 5 [Op.register 9, Op.unregister 9])
        [{ callback := 5 }, { callback := NULL }, { callback := 6 }] () true).calls
      = (([{ callback := 5 }, { callback := NULL }, { callback := 6 }] : List CB_Data).filter
          (fun d => decide (d.callback ≠ NULL))).map (fun d => (d.callback, true)) ∧
    (MULTICAST1.Invoke 3 (callingSubscriber Unit Bool 5 [Op.register 9, Op.unregister 9])
        [{ callback := 5 }, { callback := NULL }, { callback := 6 }] () true).outcome
      = Outcome.returned ∧
    (MULTICAST1.Invoke 3 (callingSubscriber Unit Bool 5 [Op.register 9, Op.unregister 9])
        [{ callback := 5 }, { callback := NULL }, { callback := 6 }] () true).calls.length
      = ([{ callback := 5 }, { callback := NULL }, { callback := 6 }] : List CB_Data).countP
          (fun d => decide (d.callback ≠ NULL)) ∧
    (MULTICAST1.Invoke 3 (callingSubscriber Unit Bool 5 [Op.register 9, Op.unregister 9])
        [{ callback := 5 }, { callback := NULL }, { callback := 6 }] () true).Multicast
      = [{ callback := 5 }, { callback := NULL }, { callback := 6 }] :=
  have hquiet : ∀ d ∈ ([{ callback := 5 }, { callback := NULL }, { callback := 6 }] :
        List CB_Data), d.callback ≠ NULL →
      ∀ r, (runOps 3 [{ callback := 5 }, { callback := NULL }, { callback := 6 }]
        (callingSubscriber Unit Bool 5 [Op.register 9, Op.unregister 9] d.callback true
          ([{ callback := 5 }, { callback := NULL }, { callback := 6 }], r)).1).1
        = [{ callback := 5 }, { callback := NULL }, { callback := 6 }] ∧
        ∀ o ∈ (runOps 3 [{ callback := 5 }, { callback := NULL }, { callback := 6 }]
          (callingSubscriber Unit Bool 5 [Op.register 9, Op.unregister 9] d.callback true
            ([{ callback := 5 }, { callback := NULL }, { callback := 6 }], r)).1).2,
          o = Outcome.returned := by
    intro d hd _ r
    cases r
    simp only [List.mem_cons, List.mem_singleton, List.not_mem_nil, or_false] at hd
    rcases hd with rfl | rfl | rfl <;> exact ⟨rfl, by decide⟩
  ⟨rfl, hquiet,
    C6_invoke_calls_occupied_slots_in_order 3
      (callingSubscriber Unit Bool 5 [Op.register 9, Op.unregister 9])
      [{ callback := 5 }, { callback := NULL }, { callback := 6 }] () true rfl hquiet⟩

/-- C8, as stated, fails in two ways.  On the table `[7, empty]` of capacity `2`,
with inert subscribers, `Register(7)` succeeds and gives `[7, 7]`, `Unregister(7)`
clears only slot `0` and gives `[empty, 7]`, and the following `Invoke()` calls `7`.
On the table `[5, empty]`, which does not hold `7`, `Register(7)` then
`Unregister(7)` give `[5, 7]` and `[5, empty]`; when the subscriber `5` calls
`Register(7)` before it returns, the following `Invoke()` calls `5` and then `7`. -/
theorem C8_counterexample :
    ([{ callback := 7 }, { callback := NULL }] : List CB_Data).length = 2 ∧
    (7 : CB_CallbackType) ≠ NULL ∧
    MULTICAST0.Register 2 [{ callback := 7 }, { callback := NULL }] 7
      = { Multicast := [{ callback := 7 }, { callback := 7 }],
          outcome := Outcome.returned } ∧
    MULTICAST0.Unregister 2
        (MULTICAST0.Register 2 [{ callback := 7 }, { callback := NULL }] 7).Multicast 7
      = { Multicast := [{ callback := NULL }, { callback := 7 }],
          outcome := Outcome.returned } ∧
    (MULTICAST0.Invoke 2 (inertSubscribers Unit Unit)
        (MULTICAST0.Unregister 2
          (MULTICAST0.Register 2 [{ callback := 7 }, { callback := NULL }] 7).Multicast
          7).Multicast ()).calls = [(7, ())] ∧
    MULTICAST0.Register 2 [{ callback := 5 }, { callback := NULL }] 7
      = { Multicast := [{ callback := 5 }, { callback := 7 }],
          outcome := Outcome.returned } ∧
    MULTICAST0.Unregister 2
        (MULTICAST0.Register 2 [{ callback := 5 }, { callback := NULL }] 7).Multicast 7
      = { Multicast := [{ callback := 5 }, { callback := NULL }],
          outcome := Outcome.returned } ∧
    (MULTICAST0.Invoke 2 (callingSubscriber Unit Unit 5 [Op.register 7])
        (MULTICAST0.Unregister 2
          (MULTICAST0.Register 2 [{ callback := 5 }, { callback := NULL }] 7).Multicast
          7).Multicast ()).calls = [(5, ()), (7, ())] := by
  decide

/-- C8, amended: for a table `t` of length `max` that does not already hold the
non-null callback `f` and in which `Register(f)` succeeds, `Register(f)` followed by
`Unregister(f)` returns normally; and if every subscriber in an occupied slot of
`t`, when called, leaves the table as `t` and reaches no assertion in the calls it
makes, a following `Invoke()` makes no call to `f`. -/
theorem C8_register_unregister_then_no_call {σ : Type} (max : Nat)
    (subs : Subscribers σ Unit) (t : List CB_Data) (rest : σ)
    (f : CB_CallbackType) (hlen : t.length = max) (hf : f ≠ NULL)
    (hreg : (MULTICAST0.Register max t f).outcome = Outcome.returned)
    (hnew : ∀ d ∈ t, d.callback ≠ f)
    (hquiet : ∀ d ∈ t, d.callback ≠ NULL →
      ∀ r, (runOps max t (subs d.callback () (t, r)).1).1 = t ∧
        ∀ o ∈ (runOps max t (subs d.callback () (t, r)).1).2, o = Outcome.returned) :
    (MULTICAST0.Unregister max (MULTICAST0.Register max t f).Multicast f).outcome
        = Outcome.returned ∧
    (MULTICAST0.Invoke max subs
        (MULTICAST0.Unregister max (MULTICAST0.Register max t f).Multicast f).Multicast
        rest).outcome = Outcome.returned ∧
    ∀ c ∈ (MULTICAST0.Invoke max subs
        (MULTICAST0.Unregister max (MULTICAST0.Register max t f).Multicast f).Multicast
        rest).calls,
      c.1 ≠ f := by
  rw [register0_eq, unregister0_eq] at *
  have hcap : max ≠ 0 := by
    intro h0
    subst h0
    simp [MULTICAST1.Register, CB_MulticastAddCallback] at hreg
  rcases split_at_first (fun d => d.callback = NULL) t with hnone | ⟨xs, y, rest0, ht, hy, hxs⟩
  · rw [register_full max t f hlen hcap hnone hf] at hreg
    cases hreg
  · obtain ⟨y0⟩ := y
    simp only at hy
    subst hy
    have hxf : ∀ d ∈ xs, d.callback ≠ f := fun d hd => hnew d (by rw [ht]; simp [hd])
    have hlen1 : (xs ++ ({ callback := NULL } : CB_Data) :: rest0).length = max := by
      rw [← ht]
      exact hlen
    have hround : (MULTICAST1.Unregister max (MULTICAST1.Register max t f).Multicast f)
        = { Multicast := t, outcome := Outcome.returned } := by
      rw [ht, register_first_empty max xs rest0 f hlen1 hxs hf]
      exact unregister_first_match max xs rest0 f (by simpa using hlen1) hxf hf
    rw [hround]
    obtain ⟨hc, ho, _, _, _⟩ := invoke_calls max subs t rest () hlen hquiet
    unfold MULTICAST0.Invoke
    refine ⟨rfl, ho, ?_⟩
    intro c hcm
    rw [hc] at hcm
    obtain ⟨d, hd, rfl⟩ := List.mem_map.mp hcm
    exact hnew d (List.mem_of_mem_filter hd)

/-- Witness of C8 amended on the table `[5, empty]` and the new callback `7`, with
inert subscribers. -/
theorem C8_register_unregister_then_no_call_witness :
    ([{ callback := 5 }, { callback := NULL }] : List CB_Data).length = 2 ∧
    (7 : CB_CallbackType) ≠ NULL ∧
    (MULTICAST0.Register 2 [{ callback := 5 }, { callback := NULL }] 7).outcome
        = Outcome.returned ∧
    (∀ d ∈ ([{ callback := 5 }, { callback := NULL }] : List CB_Data), d.callback ≠ 7) ∧
    (∀ d ∈ ([{ callback := 5 }, { callback := NULL }] : List CB_Data), d.callback ≠ NULL →
      ∀ r, (runOps 2 [{ callback := 5 }, { callback := NULL }]
        (inertSubscribers Unit Unit d.callback ()
          ([{ callback := 5 }, { callback := NULL }], r)).1).1
        = [{ callback := 5 }, { callback := NULL }] ∧
        ∀ o ∈ (runOps 2 [{ callback := 5 }, { callback := NULL }]
          (inertSubscribers Unit Unit d.callback ()
            ([{ callback := 5 }, { callback := NULL }], r)).1).2,
          o = Outcome.returned) ∧
    (MULTICAST0.Unregister 2
        (MULTICAST0.Register 2 [{ callback := 5 }, { callback := NULL }] 7).Multicast 7).outcome
        = Outcome.returned ∧
    (MULTICAST0.Invoke 2 (inertSubscribers Unit Unit)
        (MULTICAST0.Unregister 2
          (MULTICAST0.Register 2 [{ callback := 5 }, { callback := NULL }] 7).Multicast
          7).Multicast ()).outcome = Outcome.returned ∧
    ∀ c ∈ (MULTICAST0.Invoke 2 (inertSubscribers Unit Unit)
        (MULTICAST0.Unregister 2
          (MULTICAST0.Register 2 [{ callback := 5 }, { callback := NULL }] 7).Multicast
          7).Multicast ()).calls,
      c.1 ≠ 7 :=
  ⟨rfl, by decide, by decide, by decide,
    fun d _ _ r => inert_quiet Unit Unit 2 d.callback () _ r,
    C8_register_unregister_then_no_call 2 (inertSubscribers Unit Unit)
      [{ callback := 5 }, { callback := NULL }] () 7 rfl
      (by decide) (by decide) (by decide)
      (fun d _ _ r => inert_quiet Unit Unit 2 d.callback () _ r)⟩

/-- C10, as stated, fails: on the table `[7, 7]` of capacity `2`, one `Unregister(7)`
gives `[empty, 7]` and a second one gives `[empty, empty]`, a different table. -/
theorem C10_counterexample :
    ([{ callback := 7 }, { callback := 7 }] : List CB_Data).length = 2 ∧ 1 ≤ 2 ∧
    (7 : CB_CallbackType) ≠ NULL ∧
    MULTICAST1.Unregister 2 [{ callback := 7 }, { callback := 7 }] 7
      = { Multicast := [{ callback := NULL }, { callback := 7 }],
          outcome := Outcome.returned } ∧
    MULTICAST1.Unregister 2
        (MULTICAST1.Unregister 2 [{ callback := 7 }, { callback := 7 }] 7).Multicast 7
      = { Multicast := [{ callback := NULL }, { callback := NULL }],
          outcome := Outcome.returned } ∧
    (MULTICAST1.Unregister 2
        (MULTICAST1.Unregister 2 [{ callback := 7 }, { callback := 7 }] 7).Multicast
        7).Multicast
      ≠ (MULTICAST1.Unregister 2 [{ callback := 7 }, { callback := 7 }] 7).Multicast := by
  decide

/-- C10, amended: for a table `t` of length `max >= 1` and a non-null handle `f`,
neither of two consecutive `Unregister(f)` calls reaches `assert(0)`, and the second
call leaves the table of the first unchanged exactly when `f` occupies at most one
slot of `t`. -/
theorem C10_unregister_twice (max : Nat) (t : List CB_Data) (f : CB_CallbackType)
    (hlen : t.length = max) (hcap : 1 ≤ max) (hf : f ≠ NULL) :
    (MULTICAST1.Unregister max t f).outcome = Outcome.returned ∧
    (MULTICAST1.Unregister max (MULTICAST1.Unregister max t f).Multicast f).outcome
        = Outcome.returned ∧
    ((MULTICAST1.Unregister max (MULTICAST1.Unregister max t f).Multicast f).Multicast
        = (MULTICAST1.Unregister max t f).Multicast
      ↔ t.countP (fun d => decide (d.callback = f)) ≤ 1) := by
  have hcap0 : max ≠ 0 := by omega
  have hnull : ({ callback := NULL } : CB_Data).callback ≠ f := fun h => hf h.symm
  rcases split_at_first (fun d => d.callback = f) t with hnone | ⟨xs, y, rest, rfl, hy, hxs⟩
  · have h0 : t.countP (fun d => decide (d.callback = f)) = 0 :=
      List.countP_eq_zero.mpr (fun d hd => by simpa using hnone d hd)
    rw [unregister_absent max t f hlen hcap0 hnone hf]
    simp only [unregister_absent max t f hlen hcap0 hnone hf, h0, true_and, true_iff]
    omega
  · obtain ⟨y0⟩ := y
    simp only at hy
    subst hy
    have hcx : xs.countP (fun d => decide (d.callback = y0)) = 0 :=
      List.countP_eq_zero.mpr (fun d hd => by simpa using hxs d hd)
    have hlen' : (xs ++ ({ callback := NULL } : CB_Data) :: rest).length = max := by
      simpa using hlen
    rw [unregister_first_match max xs rest y0 hlen hxs hf]
    rcases split_at_first (fun d => d.callback = y0) rest with
      hnone | ⟨ys, z, rest2, rfl, hz, hys⟩
    · have hcr : rest.countP (fun d => decide (d.callback = y0)) = 0 :=
        List.countP_eq_zero.mpr (fun d hd => by simpa using hnone d hd)
      have habs : ∀ d ∈ xs ++ { callback := NULL } :: rest, d.callback ≠ y0 := by
        intro d hd
        rcases List.mem_append.mp hd with hd | hd
        · exact hxs d hd
        · rcases List.mem_cons.mp hd with rfl | hd
          · exact hnull
          · exact hnone d hd
      rw [unregister_absent max _ y0 hlen' hcap0 habs hf]
      refine ⟨rfl, rfl, ?_⟩
      simp [List.countP_append, List.countP_cons, hcx, hcr]
    · obtain ⟨z0⟩ := z
      simp only at hz
      subst hz
      have hpre : ∀ d ∈ xs ++ { callback := NULL } :: ys, d.callback ≠ z0 := by
        intro d hd
        rcases List.mem_append.mp hd with hd | hd
        · exact hxs d hd
        · rcases List.mem_cons.mp hd with rfl | hd
          · exact hnull
          · exact hys d hd
      have hsecond := unregister_first_match max (xs ++ { callback := NULL } :: ys) rest2 z0
        (by simpa using hlen) hpre hf
      simp only [List.append_assoc, List.cons_append] at hsecond
      rw [hsecond]
      refine ⟨rfl, rfl, ?_⟩
      constructor
      · intro heq
        simp only [List.append_cancel_left_eq, List.cons.injEq, true_and,
          CB_Data.mk.injEq] at heq
        exact absurd heq.1.symm hf
      · intro hle
        simp [List.countP_append, List.countP_cons] at hle
        omega

/-- Witness of C10 amended on the table `[7, 5, empty]`, where `7` occupies one slot. -/
theorem C10_unregister_twice_witness :
    ([{ callback := 7 }, { callback := 5 }, { callback := NULL }] : List CB_Data).length = 3 ∧
    1 ≤ 3 ∧ (7 : CB_CallbackType) ≠ NULL ∧
    (MULTICAST1.Unregister 3 [{ callback := 7 }, { callback := 5 }, { callback := NULL }]
        7).outcome = Outcome.returned ∧
    (MULTICAST1.Unregister 3
        (MULTICAST1.Unregister 3 [{ callback := 7 }, { callback := 5 }, { callback := NULL }]
          7).Multicast 7).outcome = Outcome.returned ∧
    ((MULTICAST1.Unregister 3
        (MULTICAST1.Unregister 3 [{ callback := 7 }, { callback := 5 }, { callback := NULL }]
          7).Multicast 7).Multicast
        = (MULTICAST1.Unregister 3
            [{ callback := 7 }, { callback := 5 }, { callback := NULL }] 7).Multicast
      ↔ ([{ callback := 7 }, { callback := 5 }, { callback := NULL }] : List CB_Data).countP
          (fun d => decide (d.callback = 7)) ≤ 1) :=
  ⟨rfl, by decide, by decide,
    C10_unregister_twice 3 [{ callback := 7 }, { callback := 5 }, { callback := NULL }] 7 rfl
      (by decide) (by decide)⟩

/-- C12: GetAt is a pure bounds-checked read.  For a table `t` of length
`max >= 1` and any index, `CB_MulticastGetCallback` returns the content of slot
`idx`, a handle or `NULL`, without reaching an assertion when `idx < max`, and
reaches `assert(0)`, returning `NULL`, when `idx >= max`.  The C function has no
store to the array, so the embedding returns a value and an outcome and no new
array: the table is unchanged in both cases. -/
theorem C12_get_is_bounds_checked_read (max : Nat) (t : List CB_Data) (idx : Nat)
    (hlen : t.length = max) (_hcap : 1 ≤ max) :
    (idx < max → ∃ d, t[idx]? = some d ∧
      CB_MulticastGetCallback (some t) max idx
        = { value := d.callback, outcome := Outcome.returned }) ∧
    (max ≤ idx →
      CB_MulticastGetCallback (some t) max idx
        = { value := NULL, outcome := Outcome.assertFailed }) := by
  subst hlen
  constructor
  · intro hidx
    have hm0 : t.length ≠ 0 := by omega
    have hlt : ¬ idx ≥ t.length := by omega
    refine ⟨t[idx], List.getElem?_eq_getElem hidx, ?_⟩
    simp only [CB_MulticastGetCallback, hm0, hlt, or_self, if_false,
      List.getElem?_eq_getElem hidx]
  · intro hidx
    have hge : idx ≥ t.length := hidx
    simp only [CB_MulticastGetCallback, hge, or_true, if_true]

/-- Witness of C12 on the table `[5, empty, 6]`, read at index `2`. -/
theorem C12_get_is_bounds_checked_read_witness :
    ([{ callback := 5 }, { callback := NULL }, { callback := 6 }] : List CB_Data).length = 3 ∧
    1 ≤ 3 ∧
    ((2 < 3 → ∃ d,
        ([{ callback := 5 }, { callback := NULL }, { callback := 6 }] : List CB_Data)[2]?
          = some d ∧
        CB_MulticastGetCallback
            (some [{ callback := 5 }, { callback := NULL }, { callback := 6 }]) 3 2
          = { value := d.callback, outcome := Outcome.returned }) ∧
     (3 ≤ 2 →
        CB_MulticastGetCallback
            (some [{ callback := 5 }, { callback := NULL }, { callback := 6 }]) 3 2
          = { value := NULL, outcome := Outcome.assertFailed })) :=
  ⟨rfl, by decide,
    C12_get_is_bounds_checked_read 3
      [{ callback := 5 }, { callback := NULL }, { callback := 6 }] 2 rfl (by decide)⟩

/-- C13: invalid arguments to Add and Remove are fatal and change nothing.  When
the table pointer is null, the handle is `NULL` or the capacity is `0`, both
`CB_MulticastAddCallback` and `CB_MulticastRemoveCallback` reach `assert(0)` and
leave the array exactly as it was; so Remove with the empty handle clears nothing
even when the table has empty slots.  On a table of length `max`, Remove reaches
`assert(0)` only for such arguments, so the violation differs in outcome from the
removal of a non-null handle, absent or present, which returns normally. -/
theorem C13_invalid_arguments_are_fatal (cbData : Option (List CB_Data)) (cbDataLen : Nat)
    (callback : CB_CallbackType)
    (hbad : cbData = none ∨ callback = NULL ∨ cbDataLen = 0) :
    CB_MulticastAddCallback cbData cbDataLen callback
        = { cbData := cbData, outcome := Outcome.assertFailed } ∧
    CB_MulticastRemoveCallback cbData cbDataLen callback
        = { cbData := cbData, outcome := Outcome.assertFailed } ∧
    (∀ (t : List CB_Data) (max : Nat) (h : CB_CallbackType), t.length = max →
      ((CB_MulticastRemoveCallback (some t) max h).outcome = Outcome.assertFailed
        ↔ h = NULL ∨ max = 0)) := by
  refine ⟨?_, ?_, ?_⟩
  · cases cbData with
    | none => rfl
    | some arr =>
      have hb : callback = NULL ∨ cbDataLen = 0 := by
        rcases hbad with h | h
        · cases h
        · exact h
      simp only [CB_MulticastAddCallback, hb, if_true]
  · cases cbData with
    | none => rfl
    | some arr =>
      have hb : callback = NULL ∨ cbDataLen = 0 := by
        rcases hbad with h | h
        · cases h
        · exact h
      simp only [CB_MulticastRemoveCallback, hb, if_true]
  · intro t max h hlen
    subst hlen
    constructor
    · intro hout
      by_contra hgood
      have hh : h ≠ NULL := fun e => hgood (Or.inl e)
      have hm : t.length ≠ 0 := fun e => hgood (Or.inr e)
      rcases split_at_first (fun d => d.callback = h) t with
        hnone | ⟨xs, y, rest, rfl, hy, hxs⟩
      · rw [remove_when_absent t h hnone hh hm] at hout
        cases hout
      · obtain ⟨y0⟩ := y
        simp only at hy
        subst hy
        rw [remove_at_first_match xs rest y0 hxs hh] at hout
        cases hout
    · intro hb
      simp only [CB_MulticastRemoveCallback, hb, if_true]

/-- Witness of C13 on the table `[empty, 5]` with the handle `NULL`. -/
theorem C13_invalid_arguments_are_fatal_witness :
    ((some [{ callback := NULL }, { callback := 5 }] : Option (List CB_Data)) = none
      ∨ (NULL : CB_CallbackType) = NULL ∨ 2 = 0) ∧
    CB_MulticastAddCallback (some [{ callback := NULL }, { callback := 5 }]) 2 NULL
        = { cbData := some [{ callback := NULL }, { callback := 5 }],
            outcome := Outcome.assertFailed } ∧
    CB_MulticastRemoveCallback (some [{ callback := NULL }, { callback := 5 }]) 2 NULL
        = { cbData := some [{ callback := NULL }, { callback := 5 }],
            outcome := Outcome.assertFailed } ∧
    (∀ (t : List CB_Data) (max : Nat) (h : CB_CallbackType), t.length = max →
      ((CB_MulticastRemoveCallback (some t) max h).outcome = Outcome.assertFailed
        ↔ h = NULL ∨ max = 0)) :=
  ⟨Or.inr (Or.inl rfl),
    C13_invalid_arguments_are_fatal (some [{ callback := NULL }, { callback := 5 }]) 2 NULL
      (Or.inr (Or.inl rfl))⟩

/-- C16: Invoke never triggers a contract violation of its own.  For a table `t`
of length `max >= 1` with any content, `CB_MulticastGetCallback` reaches `assert(0)`
exactly at the indices `idx >= max`; whatever the subscribers do when called, the
dispatch loop, entered at any index `idx` with `n` iterations left where
`idx + n = max` on an array of length `max`, ends without any of its GetAt calls
reaching the assertion, so `Invoke` returns normally; and `Invoke` over the
all-empty table returns normally having made no call and changed nothing. -/
theorem C16_invoke_reaches_no_assertion {σ arg1 : Type} (max : Nat)
    (subs : Subscribers σ arg1) (t : List CB_Data) (rest : σ)
    (args : arg1) (hlen : t.length = max) (hcap : 1 ≤ max) :
    (∀ idx, (CB_MulticastGetCallback (some t) max idx).outcome = Outcome.assertFailed
      ↔ max ≤ idx) ∧
    (∀ n idx (t1 : List CB_Data) (rest1 : σ) calls outs, t1.length = max → idx + n = max →
      (invokeLoop max subs args n idx t1 rest1 calls outs).outcome = Outcome.returned) ∧
    (MULTICAST1.Invoke max subs t rest args).outcome = Outcome.returned ∧
    MULTICAST1.Invoke max subs (initialMulticast max) rest args
      = { calls := [], outcome := Outcome.returned, Multicast := initialMulticast max,
          rest := rest, calleeOutcomes := [] } := by
  subst hlen
  have hm0 : t.length ≠ 0 := by omega
  refine ⟨?_, ?_, ?_, ?_⟩
  · intro idx
    by_cases hidx : idx < t.length
    · have hlt : ¬ idx ≥ t.length := by omega
      simp only [CB_MulticastGetCallback, hm0, hlt, or_self, if_false,
        List.getElem?_eq_getElem hidx]
      constructor
      · intro hbad
        cases hbad
      · intro hle
        exact hle.elim
    · have hge : idx ≥ t.length := by omega
      simp only [CB_MulticastGetCallback, hge, or_true, if_true, true_iff]
  · intro n idx t1 rest1 calls outs hlen1 hsum
    exact invokeLoop_returns t.length subs args n idx t1 rest1 calls outs hlen1 hsum
  · exact invokeLoop_returns t.length subs args t.length 0 t rest [] [] rfl (by omega)
  · exact invoke_initial t.length subs rest args

/-- Witness of C16 on the table `[5, empty, 6]` with the argument `true`, where the
subscriber `5` calls `Unregister(6)` and `Register(9)` before it returns. -/
theorem C16_invoke_reaches_no_assertion_witness :
    ([{ callback := 5 }, { callback := NULL }, { callback := 6 }] : List CB_Data).length = 3 ∧
    1 ≤ 3 ∧
    (∀ idx,
      (CB_MulticastGetCallback
          (some [{ callback := 5 }, { callback := NULL }, { callback := 6 }]) 3 idx).outcome
        = Outcome.assertFailed ↔ 3 ≤ idx) ∧
    (∀ n idx (t1 : List CB_Data) (rest1 : Unit) calls outs, t1.length = 3 → idx + n = 3 →
      (invokeLoop 3 (callingSubscriber Unit Bool 5 [Op.unregister 6, Op.register 9]) true n idx t1
        rest1 calls outs).outcome = Outcome.returned) ∧
    (MULTICAST1.Invoke 3 (callingSubscriber Unit Bool 5 [Op.unregister 6, Op.register 9])
        [{ callback := 5 }, { callback := NULL }, { callback := 6 }] () true).outcome
      = Outcome.returned ∧
    MULTICAST1.Invoke 3 (callingSubscriber Unit Bool 5 [Op.unregister 6, Op.register 9])
        (initialMulticast 3) () true
      = { calls := [], outcome := Outcome.returned, Multicast := initialMulticast 3,
          rest := (), calleeOutcomes := [] } :=
  ⟨rfl, by decide,
    C16_invoke_reaches_no_assertion 3 (callingSubscriber Unit Bool 5 [Op.unregister 6, Op.register 9])
      [{ callback := 5 }, { callback := NULL }, { callback := 6 }] () true rfl (by decide)⟩

/-- C17: Register/Unregister round trip.  For a table `t` of length `max` with at
least one empty slot and a non-null handle `f` that no slot holds, `Register(f)`
returns normally and the following `Unregister(f)` returns normally and leaves
exactly `t`. -/
theorem C17_register_unregister_round_trip (max : Nat) (t : List CB_Data)
    (f : CB_CallbackType) (hlen : t.length = max) (hf : f ≠ NULL)
    (hempty : ∃ d ∈ t, d.callback = NULL) (hnew : ∀ d ∈ t, d.callback ≠ f) :
    (MULTICAST1.Register max t f).outcome = Outcome.returned ∧
    MULTICAST1.Unregister max (MULTICAST1.Register max t f).Multicast f
      = { Multicast := t, outcome := Outcome.returned } := by
  rcases split_at_first (fun d => d.callback = NULL) t with hnone | ⟨xs, y, rest, rfl, hy, hxs⟩
  · obtain ⟨d, hd, hd0⟩ := hempty
    exact absurd hd0 (hnone d hd)
  · obtain ⟨y0⟩ := y
    simp only at hy
    subst hy
    have hxf : ∀ d ∈ xs, d.callback ≠ f := fun d hd => hnew d (by simp [hd])
    rw [register_first_empty max xs rest f hlen hxs hf]
    exact ⟨rfl, unregister_first_match max xs rest f (by simpa using hlen) hxf hf⟩

/-- Witness of C17 on the table `[5, empty, 6]` with the new handle `7`. -/
theorem C17_register_unregister_round_trip_witness :
    ([{ callback := 5 }, { callback := NULL }, { callback := 6 }] : List CB_Data).length = 3 ∧
    (7 : CB_CallbackType) ≠ NULL ∧
    (∃ d ∈ ([{ callback := 5 }, { callback := NULL }, { callback := 6 }] : List CB_Data),
      d.callback = NULL) ∧
    (∀ d ∈ ([{ callback := 5 }, { callback := NULL }, { callback := 6 }] : List CB_Data),
      d.callback ≠ 7) ∧
    (MULTICAST1.Register 3 [{ callback := 5 }, { callback := NULL }, { callback := 6 }]
        7).outcome = Outcome.returned ∧
    MULTICAST1.Unregister 3
        (MULTICAST1.Register 3 [{ callback := 5 }, { callback := NULL }, { callback := 6 }]
          7).Multicast 7
      = { Multicast := [{ callback := 5 }, { callback := NULL }, { callback := 6 }],
          outcome := Outcome.returned } :=
  ⟨rfl, by decide, ⟨{ callback := NULL }, by simp, rfl⟩, by decide,
    C17_register_unregister_round_trip 3
      [{ callback := 5 }, { callback := NULL }, { callback := 6 }] 7 rfl (by decide)
      ⟨{ callback := NULL }, by simp, rfl⟩ (by decide)⟩

/-- C18: the slot table refines a bounded multiset of subscribers.  Take any
sequence `ops` of `Register`/`Unregister` calls with non-null handles, applied to
the all-empty table of length `C`, in which no call reaches `assert(0)`.  Then after
every number `k` of those calls: the table still has length `C`; the multiset of
occupied handles equals the abstract multiset `specRun 0`, obtained by inserting
one occurrence per `Register` and deleting one occurrence, if any, per
`Unregister`; its size is at most `C`; and a further `Register` of a non-null
handle reaches `assert(0)` exactly when that multiset has size `C`. -/
theorem C18_table_refines_bounded_multiset (C : Nat) (ops : List Op)
    (hops : ∀ op ∈ ops, op.callback ≠ NULL)
    (hok : ∀ o ∈ (runOps C (initialMulticast C) ops).2, o = Outcome.returned) :
    ∀ k,
      (runOps C (initialMulticast C) (ops.take k)).1.length = C ∧
      occupiedHandles (runOps C (initialMulticast C) (ops.take k)).1 = specRun 0 (ops.take k) ∧
      Multiset.card (specRun 0 (ops.take k)) ≤ C ∧
      ∀ f, f ≠ NULL →
        ((MULTICAST1.Register C (runOps C (initialMulticast C) (ops.take k)).1 f).outcome
            = Outcome.assertFailed
          ↔ Multiset.card (specRun 0 (ops.take k)) = C) := by
  intro k
  have hinit : (initialMulticast C).length = C := by simp [initialMulticast]
  have hopsk : ∀ op ∈ ops.take k, op.callback ≠ NULL :=
    fun op hop => hops op (List.mem_of_mem_take hop)
  have hokk : ∀ o ∈ (runOps C (initialMulticast C) (ops.take k)).2, o = Outcome.returned := by
    intro o ho
    rw [runOps_take] at ho
    exact hok o (List.mem_of_mem_take ho)
  obtain ⟨hlen, hocc⟩ := runOps_refines C (ops.take k) (initialMulticast C) hinit hopsk hokk
  rw [occupiedHandles_initial] at hocc
  refine ⟨hlen, hocc, ?_, ?_⟩
  · rw [← hocc]
    have hle := card_occupiedHandles_le (runOps C (initialMulticast C) (ops.take k)).1
    omega
  · intro f hf
    rw [← hocc]
    exact register_fails_iff_card C _ f hlen hf

/-- Witness of C18 with capacity `2` and the calls `Register(5)`, `Register(6)`,
`Unregister(5)`, `Register(7)`, none of which fails. -/
theorem C18_table_refines_bounded_multiset_witness :
    (∀ op ∈ ([Op.register 5, Op.register 6, Op.unregister 5, Op.register 7] : List Op),
      op.callback ≠ NULL) ∧
    (∀ o ∈ (runOps 2 (initialMulticast 2)
        [Op.register 5, Op.register 6, Op.unregister 5, Op.register 7]).2,
      o = Outcome.returned) ∧
    ∀ k,
      (runOps 2 (initialMulticast 2)
          (List.take k [Op.register 5, Op.register 6, Op.unregister 5, Op.register 7])).1.length = 2 ∧
      occupiedHandles (runOps 2 (initialMulticast 2)
          (List.take k [Op.register 5, Op.register 6, Op.unregister 5, Op.register 7])).1
        = specRun 0 (List.take k [Op.register 5, Op.register 6, Op.unregister 5, Op.register 7]) ∧
      Multiset.card
        (specRun 0 (List.take k [Op.register 5, Op.register 6, Op.unregister 5, Op.register 7]))
        ≤ 2 ∧
      ∀ f, f ≠ NULL →
        ((MULTICAST1.Register 2 (runOps 2 (initialMulticast 2)
          (List.take k [Op.register 5, Op.register 6, Op.unregister 5, Op.register 7])).1 f).outcome = Outcome.assertFailed
          ↔ Multiset.card
              (specRun 0
                (List.take k [Op.register 5, Op.register 6, Op.unregister 5, Op.register 7]))
            = 2) :=
  ⟨by decide, by decide,
    C18_table_refines_bounded_multiset 2
      [Op.register 5, Op.register 6, Op.unregister 5, Op.register 7] (by decide) (by decide)⟩

end Multicast
